import Mathlib

/-!
Shallow embedding of Falcor's `HitInfo.slang` packed hit-record codec.

Conventions of the embedding:
* HLSL `uint` values are natural numbers kept below `2^32`; arithmetic that can
  wrap is reduced modulo `2^32` explicitly (`u32`), and shift counts are masked
  to five bits as HLSL mandates (`wshl`, `wshr`).
* `float` fields that only ever cross the codec through bit reinterpretation
  (`asuint`/`asfloat`) or half-float conversion (`f32tof16`/`f16tof32`) are
  embedded as their IEEE-754 single-precision bit patterns (a `Nat` below
  `2^32`): so `VolumeHit.t`, `VolumeHit.g`, `SDFGridHitData.hitT` and
  `DisplacedTriangleHit.displacement`.
* `float` fields that undergo unsigned-normalized quantization (the
  barycentrics) are embedded as exact rationals, and the quantization
  arithmetic is carried out exactly in `ℚ`; `asuint`/`asfloat` on such a field
  are modelled by correctly-rounded encoding (`f32ofRat`) and exact valuation
  (`val32`) of single-precision bit patterns.
-/

namespace Falcor

/-- `2^32`, the modulus of HLSL `uint` arithmetic. -/
def U32 : Nat := 4294967296

/-- Reduce to a 32-bit unsigned integer, as HLSL `uint` arithmetic does. -/
def u32 (x : Nat) : Nat := x % U32

/-- HLSL `uint` left shift: the shift count is masked to five bits and the
result wraps modulo `2^32`. -/
def wshl (a k : Nat) : Nat := u32 (a <<< (k % 32))

/-- HLSL `uint` right shift: the shift count is masked to five bits. -/
def wshr (a k : Nat) : Nat := u32 a >>> (k % 32)

/-- The field mask `(1 << bits) - 1` computed in `uint` arithmetic. -/
def bmask (bits : Nat) : Nat := wshl 1 bits - 1

/-- HLSL cast of a `float` to `uint` after `trunc`: truncation toward zero
(which is the floor on the nonnegative inputs the codec feeds it), wrapping
like every `uint` computation. -/
def ftoUint (q : ℚ) : Nat := u32 (Int.toNat ⌊q⌋)

/-- Round `n / 2^k` to the nearest integer, ties to even (the IEEE-754 default
rounding used by the GPU float conversions). -/
def roundShiftRNE (n k : Nat) : Nat :=
  if 2 ^ k < 2 * (n % 2 ^ k) ∨ (2 * (n % 2 ^ k) = 2 ^ k ∧ n / 2 ^ k % 2 = 1) then
    n / 2 ^ k + 1
  else n / 2 ^ k

/-- The HLSL intrinsic `f32tof16`: convert an IEEE-754 single bit pattern to
the nearest (ties-to-even) IEEE-754 half bit pattern, stored in the low 16
bits of the result. -/
def f32tof16 (x : Nat) : Nat :=
  let y := u32 x
  let s := y / 2 ^ 31
  let e := y / 2 ^ 23 % 256
  let m := y % 2 ^ 23
  if e = 255 then s * 2 ^ 15 + 31 * 2 ^ 10 + (if m = 0 then 0 else 512)
  else if 143 ≤ e then s * 2 ^ 15 + 31 * 2 ^ 10
  else if 113 ≤ e then s * 2 ^ 15 + (e - 113) * 2 ^ 10 + roundShiftRNE (2 ^ 23 + m) 13
  else if 1 ≤ e then s * 2 ^ 15 + roundShiftRNE (2 ^ 23 + m) (126 - e)
  else s * 2 ^ 15

/-- The HLSL intrinsic `f16tof32`: the IEEE-754 half stored in the low 16 bits
of the argument, converted (exactly) to a single bit pattern. -/
def f16tof32 (x : Nat) : Nat :=
  let h := x % 2 ^ 16
  let s := h / 2 ^ 15
  let e := h / 2 ^ 10 % 32
  let m := h % 2 ^ 10
  if e = 31 then s * 2 ^ 31 + 255 * 2 ^ 23 + m * 2 ^ 13
  else if e = 0 then
    if m = 0 then s * 2 ^ 31
    else s * 2 ^ 31 + (m.log2 + 103) * 2 ^ 23 + (m - 2 ^ m.log2) * 2 ^ (23 - m.log2)
  else s * 2 ^ 31 + (e + 112) * 2 ^ 23 + m * 2 ^ 13

/-- The rational value denoted by a finite IEEE-754 single bit pattern
(`asfloat` under the rational embedding of floats). -/
def val32 (x : Nat) : ℚ :=
  let y : Nat := u32 x
  let s : ℚ := if 2 ^ 31 ≤ y then -1 else 1
  let e : Nat := y / 2 ^ 23 % 256
  let m : Nat := y % 2 ^ 23
  if e = 0 then s * (m : ℚ) / 2 ^ 149
  else s * (((2 ^ 23 + m : Nat) : ℚ) * 2 ^ (e - 1)) / 2 ^ 149

/-- Round a rational to the nearest integer, ties to even. -/
def ratRoundRNE (q : ℚ) : ℤ :=
  if 1 / 2 < q - ⌊q⌋ ∨ (q - ⌊q⌋ = 1 / 2 ∧ ⌊q⌋ % 2 ≠ 0) then ⌊q⌋ + 1 else ⌊q⌋

/-- Encode a rational as the nearest (ties-to-even) IEEE-754 single bit
pattern (`asuint` under the rational embedding of floats). -/
def f32ofRat (q : ℚ) : Nat :=
  if q = 0 then 0
  else
    let s : Nat := if q < 0 then 2 ^ 31 else 0
    let e : ℤ := max (Int.log 2 |q|) (-126)
    let r := Int.toNat (ratRoundRNE (|q| * 2 ^ ((23 : ℤ) - e)))
    s + min (Int.toNat (e + 126) * 2 ^ 23 + r) (255 * 2 ^ 23)

/-- Modelled from the spec: `packUnorm16_unsafe` from
`Utils.Math.FormatConversion`, which is not among the provided sources.  The
spec describes it as unclamped 16-bit unsigned-normalized fixed point mapping
`[0,1]` onto a 16-bit integer, with the same quantization pattern it spells
out for the 24-bit case (scale, add one half, truncate). -/
def packUnorm16Raw (v : ℚ) : Nat := ftoUint (v * 65535 + 1 / 2)

/-- Modelled from the spec: `packUnorm2x16_unsafe` from
`Utils.Math.FormatConversion` (not among the provided sources): both
components packed as 16-bit unorms into one word, `x` in the low half. -/
def packUnorm2x16Raw (v : ℚ × ℚ) : Nat :=
  packUnorm16Raw v.1 ||| wshl (packUnorm16Raw v.2) 16

/-- Modelled from the spec: `unpackUnorm16` from `Utils.Math.FormatConversion`
(not among the provided sources): decode divides by the unorm scale. -/
def unpackUnorm16 (u : Nat) : ℚ := (u : ℚ) / 65535

/-- Modelled from the spec: `unpackUnorm2x16` from
`Utils.Math.FormatConversion` (not among the provided sources). -/
def unpackUnorm2x16 (w : Nat) : ℚ × ℚ :=
  (unpackUnorm16 (w &&& 65535), unpackUnorm16 (wshr w 16))

/-- The active SDF-grid backend (`SCENE_SDF_GRID_IMPLEMENTATION`), one of four
mutually exclusive build-time selections. -/
inductive SDFGridImpl
  | ndsdf
  | svs
  | sbs
  | svo
deriving DecidableEq

/-- The build-time configuration of the codec: the `HIT_INFO_*` defines and
the per-geometry-type scene enable flags (`SCENE_HAS_GEOMETRY_TYPE`). -/
structure HitInfoConfig where
  useCompression : Bool
  typeBits : Nat
  instanceIDBits : Nat
  primitiveIndexBits : Nat
  hasTriangleMesh : Bool
  hasDisplacedTriangleMesh : Bool
  hasCurve : Bool
  hasSDFGrid : Bool
  sdfGridImpl : SDFGridImpl
deriving DecidableEq

/-- `kTypeOffset = 32u - kTypeBits` (the configurations of interest have
`typeBits ≤ 32`, where `uint` and truncated subtraction agree). -/
def HitInfoConfig.kTypeOffset (c : HitInfoConfig) : Nat := 32 - c.typeBits

/-- `kInstanceIDOffset = kPrimitiveIndexBits`. -/
def HitInfoConfig.kInstanceIDOffset (c : HitInfoConfig) : Nat := c.primitiveIndexBits

/-- `kHeaderBits = kTypeBits + kInstanceIDBits + kPrimitiveIndexBits`. -/
def HitInfoConfig.kHeaderBits (c : HitInfoConfig) : Nat :=
  c.typeBits + c.instanceIDBits + c.primitiveIndexBits

/-- Modelled from the spec: the `HitType` enumeration (`Scene.HitInfoType` is
not among the provided sources): `{None, Triangle, DisplacedTriangle, Curve,
SDFGrid, Volume}` with `None` the zero value.  The source casts freely between
`HitType` and `uint`, so the embedding uses `Nat`. -/
abbrev HitType := Nat

def HitType.none : HitType := 0

def HitType.triangle : HitType := 1

def HitType.displacedTriangle : HitType := 2

def HitType.curve : HitType := 3

def HitType.sdfGrid : HitType := 4

def HitType.volume : HitType := 5

/-- The packed hit record.  The source declares `uint2` (compressed) or
`uint4` (uncompressed); the embedding always carries four 32-bit words and
tracks the declared word count and the word indices each codec subscripts as
separate, source-derived data. -/
structure PackedHitInfo where
  w0 : Nat
  w1 : Nat
  w2 : Nat
  w3 : Nat
deriving DecidableEq

/-- A zero-initialized packed hit record (`PackedHitInfo packed = {}`). -/
def PackedHitInfo.zero : PackedHitInfo := ⟨0, 0, 0, 0⟩

/-- The number of 32-bit words of the declared `PackedHitInfo` type: `uint2`
with compression, `uint4` without. -/
def PackedHitInfo.numWords (c : HitInfoConfig) : Nat :=
  if c.useCompression then 2 else 4

/-- `HitInfo::packHeader(packed, type)`: only the type tag, at `kTypeOffset`
of word 0. -/
def HitInfo.packHeaderType (c : HitInfoConfig) (p : PackedHitInfo) (type : HitType) :
    PackedHitInfo :=
  { p with w0 := wshl type c.kTypeOffset }

/-- `HitInfo::packHeader(packed, type, instanceID, primitiveIndex)`. -/
def HitInfo.packHeader (c : HitInfoConfig) (p : PackedHitInfo) (type : HitType)
    (instanceID primitiveIndex : Nat) : PackedHitInfo :=
  if c.kHeaderBits ≤ 32 then
    { p with
      w0 := wshl type c.kTypeOffset ||| wshl instanceID c.kInstanceIDOffset |||
        u32 primitiveIndex }
  else
    { p with w0 := wshl type c.kTypeOffset ||| u32 instanceID, w1 := u32 primitiveIndex }

/-- `HitInfo::unpackHeader(packed, instanceID, primitiveIndex)`; the pair is
`(instanceID.index, primitiveIndex)`. -/
def HitInfo.unpackHeader (c : HitInfoConfig) (p : PackedHitInfo) : Nat × Nat :=
  if c.kHeaderBits ≤ 32 then
    (wshr p.w0 c.kInstanceIDOffset &&& bmask c.instanceIDBits,
      p.w0 &&& bmask c.primitiveIndexBits)
  else
    (p.w0 &&& bmask c.instanceIDBits, p.w1)

/-- `TriangleHit` (a `GeometryHit`): instance id, primitive index and two
barycentrics; the `GeometryInstanceID` wrapper is flattened to its single
`uint index` field. -/
structure TriangleHit where
  instanceID : Nat
  primitiveIndex : Nat
  barycentrics : ℚ × ℚ
deriving DecidableEq

/-- `TriangleHit::pack`. -/
def TriangleHit.pack (c : HitInfoConfig) (h : TriangleHit) : PackedHitInfo :=
  if c.hasTriangleMesh then
    let p := HitInfo.packHeader c PackedHitInfo.zero HitType.triangle h.instanceID
      h.primitiveIndex
    if c.useCompression then { p with w1 := packUnorm2x16Raw h.barycentrics }
    else { p with w2 := f32ofRat h.barycentrics.1, w3 := f32ofRat h.barycentrics.2 }
  else PackedHitInfo.zero

/-- `TriangleHit::__init(packed)`. -/
def TriangleHit.unpack (c : HitInfoConfig) (p : PackedHitInfo) : TriangleHit :=
  if c.hasTriangleMesh then
    let hdr := HitInfo.unpackHeader c p
    if c.useCompression then ⟨hdr.1, hdr.2, unpackUnorm2x16 p.w1⟩
    else ⟨hdr.1, hdr.2, (val32 p.w2, val32 p.w3)⟩
  else ⟨0, 0, (0, 0)⟩

/-- `DisplacedTriangleHit`: a `GeometryHit` plus the displacement offset
(embedded as its single-precision bit pattern). -/
structure DisplacedTriangleHit where
  instanceID : Nat
  primitiveIndex : Nat
  barycentrics : ℚ × ℚ
  displacement : Nat
deriving DecidableEq

/-- `DisplacedTriangleHit::pack`: `u = trunc(barycentrics * 16777215.f +
0.5f)`, `packed[2] = (u.x << 8) | (u.y >> 16)`, `packed[3] = (u.y << 16) |
f32tof16(displacement)`. -/
def DisplacedTriangleHit.pack (c : HitInfoConfig) (h : DisplacedTriangleHit) :
    PackedHitInfo :=
  if c.hasDisplacedTriangleMesh then
    let p := HitInfo.packHeader c PackedHitInfo.zero HitType.displacedTriangle
      h.instanceID h.primitiveIndex
    let ux := ftoUint (h.barycentrics.1 * 16777215 + 1 / 2)
    let uy := ftoUint (h.barycentrics.2 * 16777215 + 1 / 2)
    { p with w2 := wshl ux 8 ||| wshr uy 16, w3 := wshl uy 16 ||| f32tof16 h.displacement }
  else PackedHitInfo.zero

/-- `DisplacedTriangleHit::__init(packed)`: `ux = packed[2] >> 8`,
`uy = ((packed[2] & 0xff) << 16) | (packed[3] >> 16)`, barycentrics
`= float2(ux, uy) * (1.f / 16777215)`, displacement `= f16tof32(packed[3])`. -/
def DisplacedTriangleHit.unpack (c : HitInfoConfig) (p : PackedHitInfo) :
    DisplacedTriangleHit :=
  if c.hasDisplacedTriangleMesh then
    let hdr := HitInfo.unpackHeader c p
    let ux := wshr p.w2 8
    let uy := wshl (p.w2 &&& 255) 16 ||| wshr p.w3 16
    ⟨hdr.1, hdr.2, ((ux : ℚ) * (1 / 16777215), (uy : ℚ) * (1 / 16777215)), f16tof32 p.w3⟩
  else ⟨0, 0, (0, 0), 0⟩

/-- `CurveHit` (a `GeometryHit`). -/
structure CurveHit where
  instanceID : Nat
  primitiveIndex : Nat
  barycentrics : ℚ × ℚ
deriving DecidableEq

/-- `CurveHit::pack`: raw 32-bit floats in words 2 and 3, independent of the
compression flag. -/
def CurveHit.pack (c : HitInfoConfig) (h : CurveHit) : PackedHitInfo :=
  if c.hasCurve then
    let p := HitInfo.packHeader c PackedHitInfo.zero HitType.curve h.instanceID
      h.primitiveIndex
    { p with w2 := f32ofRat h.barycentrics.1, w3 := f32ofRat h.barycentrics.2 }
  else PackedHitInfo.zero

/-- `CurveHit::__init(packed)`. -/
def CurveHit.unpack (c : HitInfoConfig) (p : PackedHitInfo) : CurveHit :=
  if c.hasCurve then
    let hdr := HitInfo.unpackHeader c p
    ⟨hdr.1, hdr.2, (val32 p.w2, val32 p.w3)⟩
  else ⟨0, 0, (0, 0)⟩

/-- Modelled partly from the spec: `SDFGridHitData`
(`Scene.SDFs.SDFGridHitData` is not among the provided sources) carries one of
three mutually exclusive integer fields -- `{lod, hitT}`, `{primitiveID,
hitT}` or `{svoIndex, hitT}` -- selected by the active backend; the embedding
folds the three shapes into one structure.  `hitT` is embedded as its
single-precision bit pattern. -/
structure SDFGridHitData where
  lod : Nat
  primitiveID : Nat
  svoIndex : Nat
  hitT : Nat
deriving DecidableEq

/-- The integer field of `SDFGridHitData` that the active backend reads and
writes (`lod`, `primitiveID` or `svoIndex`). -/
def SDFGridHitData.activeField (impl : SDFGridImpl) (d : SDFGridHitData) : Nat :=
  match impl with
  | .ndsdf => d.lod
  | .svs => d.primitiveID
  | .sbs => d.primitiveID
  | .svo => d.svoIndex

/-- `SDFGridHit`. -/
structure SDFGridHit where
  instanceID : Nat
  hitData : SDFGridHitData
deriving DecidableEq

/-- `SDFGridHit::pack`: the backend's integer field travels in the header's
primitive-index slot, `packed[2] = asuint(hitData.hitT)`. -/
def SDFGridHit.pack (c : HitInfoConfig) (h : SDFGridHit) : PackedHitInfo :=
  if c.hasSDFGrid then
    let primitiveData := h.hitData.activeField c.sdfGridImpl
    let p := { PackedHitInfo.zero with w2 := u32 h.hitData.hitT }
    HitInfo.packHeader c p HitType.sdfGrid h.instanceID primitiveData
  else PackedHitInfo.zero

/-- `SDFGridHit::__init(packed)`. -/
def SDFGridHit.unpack (c : HitInfoConfig) (p : PackedHitInfo) : SDFGridHit :=
  if c.hasSDFGrid then
    let hdr := HitInfo.unpackHeader c p
    match c.sdfGridImpl with
    | .ndsdf => ⟨hdr.1, ⟨hdr.2, 0, 0, u32 p.w2⟩⟩
    | .svs => ⟨hdr.1, ⟨0, hdr.2, 0, u32 p.w2⟩⟩
    | .sbs => ⟨hdr.1, ⟨0, hdr.2, 0, u32 p.w2⟩⟩
    | .svo => ⟨hdr.1, ⟨0, 0, hdr.2, u32 p.w2⟩⟩
  else ⟨0, ⟨0, 0, 0, 0⟩⟩

/-- `VolumeHit`: distance `t` and phase parameter `g`, both embedded as their
single-precision bit patterns. -/
structure VolumeHit where
  t : Nat
  g : Nat
deriving DecidableEq

/-- `VolumeHit::pack`: type tag only in the header; compressed, `packed[1] =
asuint(t)` and `packed[0] |= f32tof16(g) & 0xffff`; uncompressed, raw floats
in words 1 and 2. -/
def VolumeHit.pack (c : HitInfoConfig) (h : VolumeHit) : PackedHitInfo :=
  let p := HitInfo.packHeaderType c PackedHitInfo.zero HitType.volume
  if c.useCompression then
    { p with w1 := u32 h.t, w0 := p.w0 ||| (f32tof16 h.g &&& 65535) }
  else
    { p with w1 := u32 h.t, w2 := u32 h.g }

/-- `VolumeHit::__init(packed)`. -/
def VolumeHit.unpack (c : HitInfoConfig) (p : PackedHitInfo) : VolumeHit :=
  if c.useCompression then ⟨u32 p.w1, f16tof32 (p.w0 &&& 65535)⟩
  else ⟨u32 p.w1, u32 p.w2⟩

/-- `HitInfo`: the polymorphic container; it stores exactly the packed words. -/
structure HitInfo where
  data : PackedHitInfo
deriving DecidableEq

/-- `HitInfo::pack`: returns the stored words. -/
def HitInfo.pack (h : HitInfo) : PackedHitInfo := h.data

/-- `HitInfo::getType`: `HitType(data[0] >> kTypeOffset)`. -/
def HitInfo.getType (c : HitInfoConfig) (h : HitInfo) : HitType :=
  wshr h.data.w0 c.kTypeOffset

/-- `HitInfo::isValid`: `getType() != HitType::None`. -/
def HitInfo.isValid (c : HitInfoConfig) (h : HitInfo) : Bool :=
  HitInfo.getType c h != HitType.none

/-- `HitInfo::getInstanceID`. -/
def HitInfo.getInstanceID (c : HitInfoConfig) (h : HitInfo) : Nat :=
  (HitInfo.unpackHeader c h.data).1

/-- `HitInfo::getPrimitiveIndex`. -/
def HitInfo.getPrimitiveIndex (c : HitInfoConfig) (h : HitInfo) : Nat :=
  (HitInfo.unpackHeader c h.data).2

/-- `HitInfo::getTriangleHit`. -/
def HitInfo.getTriangleHit (c : HitInfoConfig) (h : HitInfo) : TriangleHit :=
  TriangleHit.unpack c h.data

/-- `HitInfo::getDisplacedTriangleHit`. -/
def HitInfo.getDisplacedTriangleHit (c : HitInfoConfig) (h : HitInfo) :
    DisplacedTriangleHit :=
  DisplacedTriangleHit.unpack c h.data

/-- `HitInfo::getCurveHit`. -/
def HitInfo.getCurveHit (c : HitInfoConfig) (h : HitInfo) : CurveHit :=
  CurveHit.unpack c h.data

/-- `HitInfo::getSDFGridHit`. -/
def HitInfo.getSDFGridHit (c : HitInfoConfig) (h : HitInfo) : SDFGridHit :=
  SDFGridHit.unpack c h.data

/-- `HitInfo::getVolumeHit`. -/
def HitInfo.getVolumeHit (c : HitInfoConfig) (h : HitInfo) : VolumeHit :=
  VolumeHit.unpack c h.data

/-- The word indices the header codec subscripts (`packed[0]`, plus
`packed[1]` in the two-word-header branch), read off the source. -/
def headerWordIndices (c : HitInfoConfig) : List Nat :=
  if c.kHeaderBits ≤ 32 then [0] else [0, 1]

/-- Word indices `TriangleHit::pack` subscripts. -/
def TriangleHit.packWordIndices (c : HitInfoConfig) : List Nat :=
  if c.hasTriangleMesh then
    headerWordIndices c ++ (if c.useCompression then [1] else [2, 3])
  else []

/-- Word indices `TriangleHit::__init` subscripts. -/
def TriangleHit.unpackWordIndices (c : HitInfoConfig) : List Nat :=
  TriangleHit.packWordIndices c

/-- Word indices `DisplacedTriangleHit::pack` subscripts. -/
def DisplacedTriangleHit.packWordIndices (c : HitInfoConfig) : List Nat :=
  if c.hasDisplacedTriangleMesh then headerWordIndices c ++ [2, 3] else []

/-- Word indices `DisplacedTriangleHit::__init` subscripts. -/
def DisplacedTriangleHit.unpackWordIndices (c : HitInfoConfig) : List Nat :=
  DisplacedTriangleHit.packWordIndices c

/-- Word indices `CurveHit::pack` subscripts. -/
def CurveHit.packWordIndices (c : HitInfoConfig) : List Nat :=
  if c.hasCurve then headerWordIndices c ++ [2, 3] else []

/-- Word indices `CurveHit::__init` subscripts. -/
def CurveHit.unpackWordIndices (c : HitInfoConfig) : List Nat :=
  CurveHit.packWordIndices c

/-- Word indices `SDFGridHit::pack` subscripts. -/
def SDFGridHit.packWordIndices (c : HitInfoConfig) : List Nat :=
  if c.hasSDFGrid then 2 :: headerWordIndices c else []

/-- Word indices `SDFGridHit::__init` subscripts. -/
def SDFGridHit.unpackWordIndices (c : HitInfoConfig) : List Nat :=
  SDFGridHit.packWordIndices c

/-- Word indices `VolumeHit::pack` subscripts. -/
def VolumeHit.packWordIndices (c : HitInfoConfig) : List Nat :=
  0 :: (if c.useCompression then [1, 0] else [1, 2])

/-- Word indices `VolumeHit::__init` subscripts. -/
def VolumeHit.unpackWordIndices (c : HitInfoConfig) : List Nat :=
  if c.useCompression then [1, 0] else [1, 2]

/-- All word indices subscripted by any variant codec. -/
def allCodecWordIndices (c : HitInfoConfig) : List Nat :=
  TriangleHit.packWordIndices c ++ TriangleHit.unpackWordIndices c ++
    DisplacedTriangleHit.packWordIndices c ++ DisplacedTriangleHit.unpackWordIndices c ++
    CurveHit.packWordIndices c ++ CurveHit.unpackWordIndices c ++
    SDFGridHit.packWordIndices c ++ SDFGridHit.unpackWordIndices c ++
    VolumeHit.packWordIndices c ++ VolumeHit.unpackWordIndices c

/-! Arithmetic facts about the word-level operations. -/

theorem U32_eq : U32 = 2 ^ 32 := by norm_num [U32]

theorem u32_eq_of_lt {x : Nat} (h : x < 2 ^ 32) : u32 x = x := by
  rw [u32, U32_eq]; exact Nat.mod_eq_of_lt h

theorem u32_lt (x : Nat) : u32 x < 2 ^ 32 := by
  rw [u32, U32_eq]; exact Nat.mod_lt _ (by norm_num)

theorem wshl_eq {k : Nat} (a : Nat) (hk : k < 32) : wshl a k = a * 2 ^ k % 2 ^ 32 := by
  rw [wshl, u32, U32_eq, Nat.mod_eq_of_lt hk, Nat.shiftLeft_eq]

theorem wshl_eq_of_lt {a k : Nat} (hk : k < 32) (h : a * 2 ^ k < 2 ^ 32) :
    wshl a k = a * 2 ^ k := by
  rw [wshl_eq a hk]; exact Nat.mod_eq_of_lt h

theorem wshr_eq {a k : Nat} (hk : k < 32) (ha : a < 2 ^ 32) : wshr a k = a / 2 ^ k := by
  rw [wshr, u32, U32_eq, Nat.mod_eq_of_lt ha, Nat.mod_eq_of_lt hk,
    Nat.shiftRight_eq_div_pow]

theorem bmask_eq {k : Nat} (hk : k < 32) : bmask k = 2 ^ k - 1 := by
  rw [bmask, wshl_eq_of_lt hk]
  · rw [Nat.one_mul]
  · rw [Nat.one_mul]; exact Nat.pow_lt_pow_right (by norm_num) hk

theorem and_bmask {k : Nat} (a : Nat) (hk : k < 32) : a &&& bmask k = a % 2 ^ k := by
  rw [bmask_eq hk, Nat.and_pow_two_sub_one_eq_mod]

theorem or_eq_add {k a b : Nat} (hd : 2 ^ k ∣ a) (hb : b < 2 ^ k) : a ||| b = a + b := by
  obtain ⟨a2, rfl⟩ := hd
  exact (Nat.mul_add_lt_is_or hb a2).symm

theorem or_mod_two_pow (a b n : Nat) : (a ||| b) % 2 ^ n = a % 2 ^ n ||| b % 2 ^ n := by
  rw [← Nat.and_pow_two_sub_one_eq_mod (a ||| b), ← Nat.and_pow_two_sub_one_eq_mod a,
    ← Nat.and_pow_two_sub_one_eq_mod b, Nat.and_distrib_right]

theorem two_pow_32_split {t : Nat} (h : t ≤ 32) : (2 : Nat) ^ 32 = 2 ^ t * 2 ^ (32 - t) := by
  rw [← pow_add]; congr 1; omega

/-- With `typeBits ≤ 32`, the tag lands at `kTypeOffset` reduced mod
`2^typeBits`. -/
theorem wshl_type_offset (c : HitInfoConfig) (type : Nat) (h1 : 1 ≤ c.typeBits)
    (h2 : c.typeBits ≤ 32) :
    wshl type c.kTypeOffset = type % 2 ^ c.typeBits * 2 ^ c.kTypeOffset := by
  rw [wshl_eq type (by simp only [HitInfoConfig.kTypeOffset]; omega),
    two_pow_32_split h2, HitInfoConfig.kTypeOffset, Nat.mul_mod_mul_right]

/-! Word 0 of a packed header, in plain arithmetic form. -/

theorem packHeader_w0_le32 (c : HitInfoConfig) (p : PackedHitInfo)
    (type iid prim : Nat) (hT : 1 ≤ c.typeBits) (hH : c.kHeaderBits ≤ 32)
    (hiid : iid < 2 ^ c.instanceIDBits) (hprim : prim < 2 ^ c.primitiveIndexBits) :
    (HitInfo.packHeader c p type iid prim).w0 =
      type % 2 ^ c.typeBits * 2 ^ c.kTypeOffset + iid * 2 ^ c.primitiveIndexBits + prim := by
  have hbits : c.typeBits + c.instanceIDBits + c.primitiveIndexBits ≤ 32 := hH
  have hP : c.primitiveIndexBits < 32 := by omega
  have hI : c.instanceIDBits < 32 := by omega
  have hoff : c.instanceIDBits + c.primitiveIndexBits ≤ c.kTypeOffset := by
    simp only [HitInfoConfig.kTypeOffset]; omega
  have hiidp : iid * 2 ^ c.primitiveIndexBits < 2 ^ (c.instanceIDBits + c.primitiveIndexBits) := by
    rw [pow_add]
    exact Nat.mul_lt_mul_of_lt_of_le hiid (Nat.le_refl _) (Nat.pos_pow_of_pos _ (by norm_num))
  have hoff32 : c.kTypeOffset ≤ 32 := by simp only [HitInfoConfig.kTypeOffset]; omega
  have hshl_iid : wshl iid c.kInstanceIDOffset = iid * 2 ^ c.primitiveIndexBits := by
    rw [HitInfoConfig.kInstanceIDOffset]
    refine wshl_eq_of_lt hP (lt_of_lt_of_le hiidp ?_)
    exact Nat.pow_le_pow_right (by norm_num) (by omega)
  have hu32prim : u32 prim = prim := by
    refine u32_eq_of_lt (lt_of_lt_of_le hprim (Nat.pow_le_pow_right (by norm_num) (by omega)))
  have hdvd1 : 2 ^ (c.instanceIDBits + c.primitiveIndexBits) ∣
      type % 2 ^ c.typeBits * 2 ^ c.kTypeOffset :=
    Dvd.dvd.mul_left (pow_dvd_pow 2 hoff) _
  have hdvd2 : 2 ^ c.primitiveIndexBits ∣
      type % 2 ^ c.typeBits * 2 ^ c.kTypeOffset + iid * 2 ^ c.primitiveIndexBits := by
    refine Nat.dvd_add ?_ (dvd_mul_left _ _)
    exact Dvd.dvd.mul_left (pow_dvd_pow 2 (le_trans (Nat.le_add_left _ _) hoff)) _
  rw [HitInfo.packHeader, if_pos hH]
  simp only
  rw [wshl_type_offset c type hT (by omega), hshl_iid, hu32prim,
    or_eq_add hdvd1 hiidp, or_eq_add hdvd2 hprim]

theorem packHeader_w0_gt32 (c : HitInfoConfig) (p : PackedHitInfo)
    (type iid prim : Nat) (hT : 1 ≤ c.typeBits) (hH : ¬ c.kHeaderBits ≤ 32)
    (hTI : c.typeBits + c.instanceIDBits ≤ 32) (hiid : iid < 2 ^ c.instanceIDBits) :
    (HitInfo.packHeader c p type iid prim).w0 =
      type % 2 ^ c.typeBits * 2 ^ c.kTypeOffset + iid ∧
    (HitInfo.packHeader c p type iid prim).w1 = u32 prim := by
  have hiid32 : iid < 2 ^ c.kTypeOffset := by
    refine lt_of_lt_of_le hiid (Nat.pow_le_pow_right (by norm_num) ?_)
    simp only [HitInfoConfig.kTypeOffset]; omega
  rw [HitInfo.packHeader, if_neg hH]
  refine ⟨?_, rfl⟩
  simp only
  rw [wshl_type_offset c type hT (by omega),
    u32_eq_of_lt (lt_of_lt_of_le hiid32 (Nat.pow_le_pow_right (by norm_num)
      (by simp only [HitInfoConfig.kTypeOffset]; omega))),
    or_eq_add (Dvd.intro_left _ rfl) hiid32]

theorem pow_factor {i j : Nat} (a : Nat) (hij : i ≤ j) :
    a * 2 ^ j = 2 ^ i * (a * 2 ^ (j - i)) := by
  have h : 2 ^ i * 2 ^ (j - i) = 2 ^ j := by rw [← pow_add]; congr 1; omega
  calc a * 2 ^ j = a * (2 ^ i * 2 ^ (j - i)) := by rw [h]
    _ = 2 ^ i * (a * 2 ^ (j - i)) := by ring

theorem mul_pow_add_mod {a b : Nat} (i j : Nat) (hij : i ≤ j) (hb : b < 2 ^ i) :
    (a * 2 ^ j + b) % 2 ^ i = b := by
  rw [pow_factor a hij, Nat.mul_add_mod, Nat.mod_eq_of_lt hb]

theorem mul_pow_add_div {a b : Nat} (i j : Nat) (hij : i ≤ j) (hb : b < 2 ^ i) :
    (a * 2 ^ j + b) / 2 ^ i = a * 2 ^ (j - i) := by
  rw [pow_factor a hij, Nat.mul_add_div (Nat.pos_pow_of_pos i (by norm_num)),
    Nat.div_eq_of_lt hb, Nat.add_zero]

/-- A concrete configuration exercising the two-word-header branch with an
instance-id field wider than the bits left beside the type tag in word 0. -/
def cfgWide : HitInfoConfig := ⟨false, 4, 30, 10, true, true, true, true, .ndsdf⟩

/-- C1, counterexample: under `typeBits = 4`, `instanceIDBits = 30`,
`primitiveIndexBits = 10` (`headerBits = 44 > 32`), packing a `Triangle`
header with `instanceID = 0` and `primitiveIndex = 0` — both within their
configured bit widths — and unpacking does not return the packed instance id:
the tag bit at position 28 survives the `(1 << 30) - 1` mask and the decoded
instance id is `2^28`, not `0`. -/
theorem unpackHeader_packHeader_claim_false :
    HitInfo.unpackHeader cfgWide
        (HitInfo.packHeader cfgWide PackedHitInfo.zero HitType.triangle 0 0) ≠
      ((0 : Nat), (0 : Nat)) := by
  decide

/-- C1 (amended): for every configuration with `typeBits ≥ 1`,
`primitiveIndexBits ≤ 32` and `typeBits + instanceIDBits ≤ 32`, every hit
type, every `instanceID < 2^instanceIDBits` and every
`primitiveIndex < 2^primitiveIndexBits`, `unpackHeader` applied to the result
of `packHeader(type, instanceID, primitiveIndex)` returns exactly that
instanceID and that primitiveIndex, in both the `headerBits ≤ 32` branch
(where each field is masked by `(1 << fieldBits) - 1` on unpack) and the
`headerBits > 32` branch (where the instance id is masked and the primitive
index is read back unmasked from word 1). -/
theorem unpackHeader_packHeader (c : HitInfoConfig) (type iid prim : Nat)
    (hT : 1 ≤ c.typeBits) (hTI : c.typeBits + c.instanceIDBits ≤ 32)
    (hP32 : c.primitiveIndexBits ≤ 32)
    (hiid : iid < 2 ^ c.instanceIDBits) (hprim : prim < 2 ^ c.primitiveIndexBits) :
    HitInfo.unpackHeader c (HitInfo.packHeader c PackedHitInfo.zero type iid prim) =
      (iid, prim) := by
  have htyp : type % 2 ^ c.typeBits < 2 ^ c.typeBits :=
    Nat.mod_lt _ (Nat.pos_pow_of_pos _ (by norm_num))
  by_cases hH : c.kHeaderBits ≤ 32
  · have hbits : c.typeBits + c.instanceIDBits + c.primitiveIndexBits ≤ 32 := hH
    have hP : c.primitiveIndexBits < 32 := by omega
    have hI : c.instanceIDBits < 32 := by omega
    have hoff : c.instanceIDBits + c.primitiveIndexBits ≤ c.kTypeOffset := by
      simp only [HitInfoConfig.kTypeOffset]; omega
    have hw0 := packHeader_w0_le32 c PackedHitInfo.zero type iid prim hT hH hiid hprim
    have hr : iid * 2 ^ c.primitiveIndexBits + prim <
        2 ^ (c.instanceIDBits + c.primitiveIndexBits) := by
      calc iid * 2 ^ c.primitiveIndexBits + prim
          < (iid + 1) * 2 ^ c.primitiveIndexBits := by
            rw [add_mul, one_mul]; exact Nat.add_lt_add_left hprim _
        _ ≤ 2 ^ c.instanceIDBits * 2 ^ c.primitiveIndexBits :=
            Nat.mul_le_mul_right _ (Nat.succ_le_of_lt hiid)
        _ = 2 ^ (c.instanceIDBits + c.primitiveIndexBits) := (pow_add 2 _ _).symm
    have hro : iid * 2 ^ c.primitiveIndexBits + prim < 2 ^ c.kTypeOffset :=
      lt_of_lt_of_le hr (Nat.pow_le_pow_right (by norm_num) hoff)
    have hw0lt : (HitInfo.packHeader c PackedHitInfo.zero type iid prim).w0 < 2 ^ 32 := by
      rw [hw0, two_pow_32_split (show c.typeBits ≤ 32 by omega), Nat.add_assoc]
      calc type % 2 ^ c.typeBits * 2 ^ c.kTypeOffset +
            (iid * 2 ^ c.primitiveIndexBits + prim)
          < type % 2 ^ c.typeBits * 2 ^ c.kTypeOffset + 2 ^ c.kTypeOffset :=
            Nat.add_lt_add_left hro _
        _ = (type % 2 ^ c.typeBits + 1) * 2 ^ c.kTypeOffset := by ring
        _ ≤ 2 ^ c.typeBits * 2 ^ c.kTypeOffset :=
            Nat.mul_le_mul_right _ (Nat.succ_le_of_lt htyp)
    rw [HitInfo.unpackHeader, if_pos hH, HitInfoConfig.kInstanceIDOffset,
      wshr_eq hP hw0lt, and_bmask _ hI, and_bmask _ hP, hw0]
    have hPoff : c.primitiveIndexBits ≤ c.kTypeOffset :=
      le_trans (Nat.le_add_left _ _) hoff
    have hsplit : type % 2 ^ c.typeBits * 2 ^ c.kTypeOffset +
        iid * 2 ^ c.primitiveIndexBits + prim =
        2 ^ c.primitiveIndexBits *
          (type % 2 ^ c.typeBits * 2 ^ (c.kTypeOffset - c.primitiveIndexBits) + iid) +
          prim := by
      rw [pow_factor (type % 2 ^ c.typeBits) hPoff]
      ring
    rw [hsplit, Nat.mul_add_div (Nat.pos_pow_of_pos _ (by norm_num)),
      Nat.div_eq_of_lt hprim, Nat.add_zero, Nat.mul_add_mod, Nat.mod_eq_of_lt hprim,
      mul_pow_add_mod c.instanceIDBits (c.kTypeOffset - c.primitiveIndexBits)
        (by omega) hiid]
  · obtain ⟨hw0, hw1⟩ := packHeader_w0_gt32 c PackedHitInfo.zero type iid prim hT hH hTI hiid
    have hI : c.instanceIDBits < 32 := by omega
    rw [HitInfo.unpackHeader, if_neg hH, hw0, hw1, and_bmask _ hI,
      mul_pow_add_mod c.instanceIDBits c.kTypeOffset
        (by simp only [HitInfoConfig.kTypeOffset]; omega) hiid,
      u32_eq_of_lt (lt_of_lt_of_le hprim (Nat.pow_le_pow_right (by norm_num) hP32))]

/-- A concrete configuration exercising the two-word-header branch within the
amended hypotheses. -/
def cfgTwoWord : HitInfoConfig := ⟨false, 4, 20, 32, true, true, true, true, .ndsdf⟩

/-- C1, witness: the amended round-trip theorem applied at the concrete
two-word-header configuration `typeBits = 4`, `instanceIDBits = 20`,
`primitiveIndexBits = 32` with `instanceID = 5`, `primitiveIndex = 123456`. -/
theorem unpackHeader_packHeader_witness :
    HitInfo.unpackHeader cfgTwoWord
        (HitInfo.packHeader cfgTwoWord PackedHitInfo.zero HitType.triangle 5 123456) =
      ((5 : Nat), (123456 : Nat)) :=
  unpackHeader_packHeader cfgTwoWord HitType.triangle 5 123456 (by decide) (by decide)
    (by decide) (by decide) (by decide)

/-- C2: a zero-filled `PackedHitInfo` yields `getType() = HitType::None` and
`isValid() = false`, for every configuration of the bit widths, enable flags
and the compression flag. -/
theorem zero_packed_invalid (c : HitInfoConfig) :
    HitInfo.getType c ⟨PackedHitInfo.zero⟩ = HitType.none ∧
      HitInfo.isValid c ⟨PackedHitInfo.zero⟩ = false := by
  have h : HitInfo.getType c ⟨PackedHitInfo.zero⟩ = HitType.none := by
    simp [HitInfo.getType, PackedHitInfo.zero, wshr, u32, HitType.none]
  exact ⟨h, by simp [HitInfo.isValid, h]⟩

/-- C10: a `HitInfo` constructed from raw packed words packs back to exactly
those words, and a `HitInfo` rebuilt from its own `pack()` output is the same
value: the raw-words constructor and `pack()` are exact mutual inverses.  (All
query methods of the source are non-mutating Slang methods, so every query in
the embedding is a pure function of the stored words.) -/
theorem hitInfo_pack_inverse :
    (∀ p : PackedHitInfo, HitInfo.pack ⟨p⟩ = p) ∧
      ∀ h : HitInfo, (⟨HitInfo.pack h⟩ : HitInfo) = h :=
  ⟨fun _ => rfl, fun _ => rfl⟩

/-- C8: every variant codec whose geometry type is statically disabled decodes
any packed value to the all-default, zero-initialized value instead of
decoding the stored bits. -/
theorem disabled_unpack_default (c : HitInfoConfig) (p : PackedHitInfo) :
    (c.hasTriangleMesh = false → TriangleHit.unpack c p = ⟨0, 0, (0, 0)⟩) ∧
      (c.hasDisplacedTriangleMesh = false →
        DisplacedTriangleHit.unpack c p = ⟨0, 0, (0, 0), 0⟩) ∧
      (c.hasCurve = false → CurveHit.unpack c p = ⟨0, 0, (0, 0)⟩) ∧
      (c.hasSDFGrid = false → SDFGridHit.unpack c p = ⟨0, ⟨0, 0, 0, 0⟩⟩) := by
  refine ⟨fun h => ?_, fun h => ?_, fun h => ?_, fun h => ?_⟩ <;>
    simp [TriangleHit.unpack, DisplacedTriangleHit.unpack, CurveHit.unpack,
      SDFGridHit.unpack, h]

/-- A configuration with every geometry type disabled. -/
def cfgAllOff : HitInfoConfig := ⟨false, 4, 12, 16, false, false, false, false, .ndsdf⟩

/-- An arbitrary nonzero packed value. -/
def pSample : PackedHitInfo := ⟨123456789, 987654321, 555555555, 111111111⟩

/-- C8, witness: with every geometry type disabled, unpacking a nonzero packed
value through each codec returns the all-zero default. -/
theorem disabled_unpack_default_witness :
    TriangleHit.unpack cfgAllOff pSample = ⟨0, 0, (0, 0)⟩ ∧
      DisplacedTriangleHit.unpack cfgAllOff pSample = ⟨0, 0, (0, 0), 0⟩ ∧
      CurveHit.unpack cfgAllOff pSample = ⟨0, 0, (0, 0)⟩ ∧
      SDFGridHit.unpack cfgAllOff pSample = ⟨0, ⟨0, 0, 0, 0⟩⟩ :=
  ⟨(disabled_unpack_default cfgAllOff pSample).1 rfl,
    (disabled_unpack_default cfgAllOff pSample).2.1 rfl,
    (disabled_unpack_default cfgAllOff pSample).2.2.1 rfl,
    (disabled_unpack_default cfgAllOff pSample).2.2.2 rfl⟩

/-! Word-index bounds (claim C9 material). -/

theorem headerWordIndices_lt (c : HitInfoConfig) : ∀ i ∈ headerWordIndices c, i < 2 := by
  unfold headerWordIndices
  split <;> intro i hi <;> simp at hi <;> omega

theorem trianglePackWordIndices_lt (c : HitInfoConfig) :
    ∀ i ∈ TriangleHit.packWordIndices c, i < 4 := by
  unfold TriangleHit.packWordIndices
  split
  · intro i hi
    rcases List.mem_append.mp hi with h | h
    · exact lt_of_lt_of_le (headerWordIndices_lt c i h) (by norm_num)
    · split at h <;> simp at h <;> omega
  · simp

theorem displacedPackWordIndices_lt (c : HitInfoConfig) :
    ∀ i ∈ DisplacedTriangleHit.packWordIndices c, i < 4 := by
  unfold DisplacedTriangleHit.packWordIndices
  split
  · intro i hi
    rcases List.mem_append.mp hi with h | h
    · exact lt_of_lt_of_le (headerWordIndices_lt c i h) (by norm_num)
    · simp at h; omega
  · simp

theorem curvePackWordIndices_lt (c : HitInfoConfig) :
    ∀ i ∈ CurveHit.packWordIndices c, i < 4 := by
  unfold CurveHit.packWordIndices
  split
  · intro i hi
    rcases List.mem_append.mp hi with h | h
    · exact lt_of_lt_of_le (headerWordIndices_lt c i h) (by norm_num)
    · simp at h; omega
  · simp

theorem sdfGridPackWordIndices_lt (c : HitInfoConfig) :
    ∀ i ∈ SDFGridHit.packWordIndices c, i < 4 := by
  unfold SDFGridHit.packWordIndices
  split
  · intro i hi
    rcases List.mem_cons.mp hi with h | h
    · omega
    · exact lt_of_lt_of_le (headerWordIndices_lt c i h) (by norm_num)
  · simp

theorem volumePackWordIndices_lt (c : HitInfoConfig) :
    ∀ i ∈ VolumeHit.packWordIndices c, i < 4 := by
  unfold VolumeHit.packWordIndices
  intro i hi
  rcases List.mem_cons.mp hi with h | h
  · omega
  · split at h <;> simp at h <;> omega

theorem volumeUnpackWordIndices_lt (c : HitInfoConfig) :
    ∀ i ∈ VolumeHit.unpackWordIndices c, i < 4 := by
  unfold VolumeHit.unpackWordIndices
  intro i hi
  split at hi <;> simp at hi <;> omega

/-- A compressed configuration with every geometry type enabled. -/
def cfgCompressed : HitInfoConfig := ⟨true, 4, 12, 16, true, true, true, true, .ndsdf⟩

/-- C9, counterexample: under the compressed two-word configuration, the
`DisplacedTriangleHit` codec subscripts word index 2, which is not within the
bounds of the two-word `PackedHitInfo` array. -/
theorem word_indices_claim_false :
    2 ∈ DisplacedTriangleHit.packWordIndices cfgCompressed ∧
      ¬ 2 < PackedHitInfo.numWords cfgCompressed := by
  decide

/-- C9 (amended): in the uncompressed four-word configuration every word index
subscripted by any variant codec is within bounds; under compression the
`Triangle` and `Volume` codecs stay within the two-word bounds, while (per the
counterexample) the `DisplacedTriangle`, `Curve` and `SDFGrid` codecs
subscript words 2 and 3, beyond the two-word array. -/
theorem word_indices_in_bounds (c : HitInfoConfig) :
    (c.useCompression = false →
      ∀ i ∈ allCodecWordIndices c, i < PackedHitInfo.numWords c) ∧
      (c.useCompression = true →
        ∀ i ∈ TriangleHit.packWordIndices c ++ TriangleHit.unpackWordIndices c ++
            VolumeHit.packWordIndices c ++ VolumeHit.unpackWordIndices c,
          i < PackedHitInfo.numWords c) := by
  constructor
  · intro hc i hi
    have h4 : PackedHitInfo.numWords c = 4 := by simp [PackedHitInfo.numWords, hc]
    rw [h4]
    unfold allCodecWordIndices at hi
    simp only [List.mem_append] at hi
    rcases hi with ((((((((h | h) | h) | h) | h) | h) | h) | h) | h) | h
    · exact trianglePackWordIndices_lt c i h
    · exact trianglePackWordIndices_lt c i h
    · exact displacedPackWordIndices_lt c i h
    · exact displacedPackWordIndices_lt c i h
    · exact curvePackWordIndices_lt c i h
    · exact curvePackWordIndices_lt c i h
    · exact sdfGridPackWordIndices_lt c i h
    · exact sdfGridPackWordIndices_lt c i h
    · exact volumePackWordIndices_lt c i h
    · exact volumeUnpackWordIndices_lt c i h
  · intro hc i hi
    have h2 : PackedHitInfo.numWords c = 2 := by simp [PackedHitInfo.numWords, hc]
    rw [h2]
    simp only [List.mem_append] at hi
    have htri : ∀ j ∈ TriangleHit.packWordIndices c, j < 2 := by
      intro j hj
      unfold TriangleHit.packWordIndices at hj
      by_cases ht : c.hasTriangleMesh = true
      · rw [if_pos ht, if_pos hc] at hj
        rcases List.mem_append.mp hj with h | h
        · exact headerWordIndices_lt c j h
        · simp at h; omega
      · rw [if_neg ht] at hj; simp at hj
    have hvolp : ∀ j ∈ VolumeHit.packWordIndices c, j < 2 := by
      intro j hj
      unfold VolumeHit.packWordIndices at hj
      rw [if_pos hc] at hj
      simp at hj
      omega
    have hvolu : ∀ j ∈ VolumeHit.unpackWordIndices c, j < 2 := by
      intro j hj
      unfold VolumeHit.unpackWordIndices at hj
      rw [if_pos hc] at hj
      simp at hj
      omega
    rcases hi with ((h | h) | h) | h
    · exact htri i h
    · exact htri i h
    · exact hvolp i h
    · exact hvolu i h

/-- C9, witness: the in-bounds statement applied at a concrete uncompressed
configuration (index 3 of the Curve codec) and at the concrete compressed
configuration (index 1 of the Volume codec). -/
theorem word_indices_in_bounds_witness :
    (3 : Nat) < PackedHitInfo.numWords cfgTwoWord ∧
      (1 : Nat) < PackedHitInfo.numWords cfgCompressed :=
  ⟨(word_indices_in_bounds cfgTwoWord).1 rfl 3 (by decide),
    (word_indices_in_bounds cfgCompressed).2 rfl 1 (by decide)⟩

/-- The configuration of spec scenario A: `typeBits = 4`,
`instanceIDBits = 12`, `primitiveIndexBits = 16` (`headerBits = 32`),
uncompressed, every geometry type enabled. -/
def cfgA : HitInfoConfig := ⟨false, 4, 12, 16, true, true, true, true, .ndsdf⟩

/-- C7: under scenario A's configuration, packing a `Triangle` hit with
`instanceID = 5` and the out-of-range `primitiveIndex = 123456` and unpacking
yields `123456 % 65536 = 57920`; in general the decoded primitive index is the
packed value reduced modulo the field capacity — silent truncation, never an
error (the codec is total). -/
theorem triangle_truncation_scenarioA :
    (TriangleHit.unpack cfgA (TriangleHit.pack cfgA ⟨5, 123456, (0, 0)⟩)).primitiveIndex =
      57920 ∧
      ∀ type iid prim : Nat,
        (HitInfo.unpackHeader cfgA
            (HitInfo.packHeader cfgA PackedHitInfo.zero type iid prim)).2 =
          prim % 65536 := by
  constructor
  · decide
  · intro type iid prim
    have h32 : cfgA.kHeaderBits ≤ 32 := by decide
    rw [HitInfo.unpackHeader, if_pos h32, HitInfo.packHeader, if_pos h32]
    simp only
    have hoff : cfgA.kTypeOffset = 28 := rfl
    have hio : cfgA.kInstanceIDOffset = 16 := rfl
    have hpb : cfgA.primitiveIndexBits = 16 := rfl
    rw [hoff, hio, hpb, and_bmask _ (by norm_num)]
    rw [or_mod_two_pow, or_mod_two_pow, wshl_eq type (by norm_num),
      wshl_eq iid (by norm_num)]
    have e1 : type * 2 ^ 28 % 2 ^ 32 % 2 ^ 16 = 0 := by
      rw [Nat.mod_mod_of_dvd _ (by norm_num),
        pow_factor type (show (16 : Nat) ≤ 28 by norm_num), Nat.mul_mod_right]
    have e2 : iid * 2 ^ 16 % 2 ^ 32 % 2 ^ 16 = 0 := by
      rw [Nat.mod_mod_of_dvd _ (by norm_num), Nat.mul_mod_left]
    have e3 : u32 prim % 2 ^ 16 = prim % 2 ^ 16 := by
      rw [u32, U32_eq, Nat.mod_mod_of_dvd _ (by norm_num)]
    rw [e1, e2, e3, Nat.zero_or, Nat.zero_or]
    norm_num

/-! Type-tag extraction (claim C3 material). -/

theorem wshr_tag (c : HitInfoConfig) {t low : Nat} (hT : 1 ≤ c.typeBits)
    (hT32 : c.typeBits ≤ 32) (ht : t < 2 ^ c.typeBits)
    (hlow : low < 2 ^ c.kTypeOffset) :
    wshr (t * 2 ^ c.kTypeOffset + low) c.kTypeOffset = t := by
  have hoff31 : c.kTypeOffset < 32 := by
    simp only [HitInfoConfig.kTypeOffset]; omega
  have hlt : t * 2 ^ c.kTypeOffset + low < 2 ^ 32 := by
    rw [two_pow_32_split hT32]
    calc t * 2 ^ c.kTypeOffset + low
        < t * 2 ^ c.kTypeOffset + 2 ^ c.kTypeOffset := Nat.add_lt_add_left hlow _
      _ = (t + 1) * 2 ^ c.kTypeOffset := by ring
      _ ≤ 2 ^ c.typeBits * 2 ^ c.kTypeOffset :=
          Nat.mul_le_mul_right _ (Nat.succ_le_of_lt ht)
  rw [wshr_eq hoff31 hlt, mul_pow_add_div c.kTypeOffset c.kTypeOffset le_rfl hlow,
    Nat.sub_self, pow_zero, Nat.mul_one]

theorem getType_packHeader (c : HitInfoConfig) (p : PackedHitInfo)
    (type iid prim : Nat) (hT : 1 ≤ c.typeBits) (hTI : c.typeBits + c.instanceIDBits ≤ 32)
    (htag : type < 2 ^ c.typeBits) (hiid : iid < 2 ^ c.instanceIDBits)
    (hprim : prim < 2 ^ c.primitiveIndexBits) :
    wshr (HitInfo.packHeader c p type iid prim).w0 c.kTypeOffset = type := by
  by_cases hH : c.kHeaderBits ≤ 32
  · have hbits : c.typeBits + c.instanceIDBits + c.primitiveIndexBits ≤ 32 := hH
    have hoff : c.instanceIDBits + c.primitiveIndexBits ≤ c.kTypeOffset := by
      simp only [HitInfoConfig.kTypeOffset]; omega
    have hr : iid * 2 ^ c.primitiveIndexBits + prim <
        2 ^ (c.instanceIDBits + c.primitiveIndexBits) := by
      calc iid * 2 ^ c.primitiveIndexBits + prim
          < (iid + 1) * 2 ^ c.primitiveIndexBits := by
            rw [add_mul, one_mul]; exact Nat.add_lt_add_left hprim _
        _ ≤ 2 ^ c.instanceIDBits * 2 ^ c.primitiveIndexBits :=
            Nat.mul_le_mul_right _ (Nat.succ_le_of_lt hiid)
        _ = 2 ^ (c.instanceIDBits + c.primitiveIndexBits) := (pow_add 2 _ _).symm
    have hro : iid * 2 ^ c.primitiveIndexBits + prim < 2 ^ c.kTypeOffset :=
      lt_of_lt_of_le hr (Nat.pow_le_pow_right (by norm_num) hoff)
    rw [packHeader_w0_le32 c p type iid prim hT hH hiid hprim, Nat.add_assoc,
      Nat.mod_eq_of_lt htag, wshr_tag c hT (by omega) htag hro]
  · have hiid32 : iid < 2 ^ c.kTypeOffset := by
      refine lt_of_lt_of_le hiid (Nat.pow_le_pow_right (by norm_num) ?_)
      simp only [HitInfoConfig.kTypeOffset]; omega
    rw [(packHeader_w0_gt32 c p type iid prim hT hH hTI hiid).1,
      Nat.mod_eq_of_lt htag, wshr_tag c hT (by omega) htag hiid32]

theorem trianglePack_w0 (c : HitInfoConfig) (h : TriangleHit)
    (hen : c.hasTriangleMesh = true) :
    (TriangleHit.pack c h).w0 =
      (HitInfo.packHeader c PackedHitInfo.zero HitType.triangle h.instanceID
        h.primitiveIndex).w0 := by
  rw [TriangleHit.pack, if_pos hen]
  by_cases hc : c.useCompression = true
  · rw [if_pos hc]
  · rw [if_neg hc]

theorem displacedPack_w0 (c : HitInfoConfig) (h : DisplacedTriangleHit)
    (hen : c.hasDisplacedTriangleMesh = true) :
    (DisplacedTriangleHit.pack c h).w0 =
      (HitInfo.packHeader c PackedHitInfo.zero HitType.displacedTriangle h.instanceID
        h.primitiveIndex).w0 := by
  rw [DisplacedTriangleHit.pack, if_pos hen]

theorem curvePack_w0 (c : HitInfoConfig) (h : CurveHit) (hen : c.hasCurve = true) :
    (CurveHit.pack c h).w0 =
      (HitInfo.packHeader c PackedHitInfo.zero HitType.curve h.instanceID
        h.primitiveIndex).w0 := by
  rw [CurveHit.pack, if_pos hen]

theorem sdfGridPack_w0 (c : HitInfoConfig) (h : SDFGridHit)
    (hen : c.hasSDFGrid = true) :
    (SDFGridHit.pack c h).w0 =
      (HitInfo.packHeader c { PackedHitInfo.zero with w2 := u32 h.hitData.hitT }
        HitType.sdfGrid h.instanceID (h.hitData.activeField c.sdfGridImpl)).w0 := by
  rw [SDFGridHit.pack, if_pos hen]

/-- A configuration whose two type bits cannot hold the `Volume` tag. -/
def cfgNarrowTag : HitInfoConfig := ⟨false, 2, 12, 16, true, true, true, true, .ndsdf⟩

/-- C3, counterexample: with `typeBits = 2` every geometry type is enabled and
a `VolumeHit` needs no instance id or primitive index, yet packing it and
reading the type back yields `1` (`Triangle`), not `5` (`Volume`): the tag is
silently truncated by the 32-bit wrap of `uint(type) << kTypeOffset`. -/
theorem getType_pack_claim_false :
    HitInfo.getType cfgNarrowTag ⟨VolumeHit.pack cfgNarrowTag ⟨0, 0⟩⟩ ≠ HitType.volume := by
  decide

/-- C3 (amended): for every enabled variant whose tag value fits in
`typeBits`, and every typed hit with in-range instance id and primitive
index — provided `typeBits + instanceIDBits ≤ 32` (the two-word-header
coupling) and, for `Volume` under compression, `typeBits ≤ 16` (the tag
shares word 0 with the half-float `g`) — wrapping the packed words in a
`HitInfo` and calling `getType()` returns that variant's tag; moreover
`getType()` reads only the high `typeBits` of word 0 and never inspects
payload bits. -/
theorem getType_pack_variants (c : HitInfoConfig) (hT : 1 ≤ c.typeBits)
    (hTI : c.typeBits + c.instanceIDBits ≤ 32) :
    (∀ h : TriangleHit, c.hasTriangleMesh = true → HitType.triangle < 2 ^ c.typeBits →
      h.instanceID < 2 ^ c.instanceIDBits → h.primitiveIndex < 2 ^ c.primitiveIndexBits →
      HitInfo.getType c ⟨TriangleHit.pack c h⟩ = HitType.triangle) ∧
      (∀ h : DisplacedTriangleHit, c.hasDisplacedTriangleMesh = true →
        HitType.displacedTriangle < 2 ^ c.typeBits →
        h.instanceID < 2 ^ c.instanceIDBits →
        h.primitiveIndex < 2 ^ c.primitiveIndexBits →
        HitInfo.getType c ⟨DisplacedTriangleHit.pack c h⟩ = HitType.displacedTriangle) ∧
      (∀ h : CurveHit, c.hasCurve = true → HitType.curve < 2 ^ c.typeBits →
        h.instanceID < 2 ^ c.instanceIDBits → h.primitiveIndex < 2 ^ c.primitiveIndexBits →
        HitInfo.getType c ⟨CurveHit.pack c h⟩ = HitType.curve) ∧
      (∀ h : SDFGridHit, c.hasSDFGrid = true → HitType.sdfGrid < 2 ^ c.typeBits →
        h.instanceID < 2 ^ c.instanceIDBits →
        h.hitData.activeField c.sdfGridImpl < 2 ^ c.primitiveIndexBits →
        HitInfo.getType c ⟨SDFGridHit.pack c h⟩ = HitType.sdfGrid) ∧
      (∀ h : VolumeHit, HitType.volume < 2 ^ c.typeBits →
        (c.useCompression = true → c.typeBits ≤ 16) →
        HitInfo.getType c ⟨VolumeHit.pack c h⟩ = HitType.volume) ∧
      ∀ p q : PackedHitInfo, wshr p.w0 c.kTypeOffset = wshr q.w0 c.kTypeOffset →
        HitInfo.getType c ⟨p⟩ = HitInfo.getType c ⟨q⟩ := by
  refine ⟨?_, ?_, ?_, ?_, ?_, ?_⟩
  · intro h hen htag hiid hprim
    rw [HitInfo.getType]
    simp only
    rw [trianglePack_w0 c h hen, getType_packHeader c _ _ _ _ hT hTI htag hiid hprim]
  · intro h hen htag hiid hprim
    rw [HitInfo.getType]
    simp only
    rw [displacedPack_w0 c h hen,
      getType_packHeader c _ _ _ _ hT hTI htag hiid hprim]
  · intro h hen htag hiid hprim
    rw [HitInfo.getType]
    simp only
    rw [curvePack_w0 c h hen, getType_packHeader c _ _ _ _ hT hTI htag hiid hprim]
  · intro h hen htag hiid hprim
    rw [HitInfo.getType]
    simp only
    rw [sdfGridPack_w0 c h hen, getType_packHeader c _ _ _ _ hT hTI htag hiid hprim]
  · intro h htag hcomp
    rw [HitInfo.getType]
    simp only
    rw [VolumeHit.pack]
    by_cases hc : c.useCompression = true
    · rw [if_pos hc]
      simp only [HitInfo.packHeaderType]
      have hf : f32tof16 h.g &&& 65535 < 2 ^ 16 := by
        have : (65535 : Nat) = 2 ^ 16 - 1 := by norm_num
        rw [this, Nat.and_pow_two_sub_one_eq_mod]
        exact Nat.mod_lt _ (by norm_num)
      have hoff16 : (16 : Nat) ≤ c.kTypeOffset := by
        simp only [HitInfoConfig.kTypeOffset]; have := hcomp hc; omega
      have hflow : f32tof16 h.g &&& 65535 < 2 ^ c.kTypeOffset :=
        lt_of_lt_of_le hf (Nat.pow_le_pow_right (by norm_num) hoff16)
      rw [wshl_type_offset c HitType.volume hT (by omega),
        or_eq_add (Dvd.dvd.mul_left dvd_rfl _) hflow,
        Nat.mod_eq_of_lt htag, wshr_tag c hT (by omega) htag hflow]
    · rw [if_neg hc]
      simp only [HitInfo.packHeaderType]
      rw [wshl_type_offset c HitType.volume hT (by omega), Nat.mod_eq_of_lt htag]
      calc wshr (HitType.volume * 2 ^ c.kTypeOffset) c.kTypeOffset
          = wshr (HitType.volume * 2 ^ c.kTypeOffset + 0) c.kTypeOffset := by
            rw [Nat.add_zero]
        _ = HitType.volume := wshr_tag c hT (by omega) htag
            (Nat.pos_pow_of_pos _ (by norm_num))
  · intro p q hpq
    rw [HitInfo.getType, HitInfo.getType]
    exact hpq

/-- C3, witness: under scenario A's configuration every variant's packed tag
reads back correctly (`Triangle`, `DisplacedTriangle`, `Curve`, `SDFGrid`,
`Volume`), applied at concrete hits. -/
theorem getType_pack_variants_witness :
    HitInfo.getType cfgA ⟨TriangleHit.pack cfgA ⟨5, 7, (0, 0)⟩⟩ = HitType.triangle ∧
      HitInfo.getType cfgA ⟨DisplacedTriangleHit.pack cfgA ⟨5, 7, (0, 0), 0⟩⟩ =
        HitType.displacedTriangle ∧
      HitInfo.getType cfgA ⟨CurveHit.pack cfgA ⟨5, 7, (0, 0)⟩⟩ = HitType.curve ∧
      HitInfo.getType cfgA ⟨SDFGridHit.pack cfgA ⟨5, ⟨7, 0, 0, 0⟩⟩⟩ = HitType.sdfGrid ∧
      HitInfo.getType cfgA ⟨VolumeHit.pack cfgA ⟨0, 0⟩⟩ = HitType.volume :=
  ⟨(getType_pack_variants cfgA (by decide) (by decide)).1 ⟨5, 7, (0, 0)⟩ rfl (by decide)
      (by decide) (by decide),
    (getType_pack_variants cfgA (by decide) (by decide)).2.1 ⟨5, 7, (0, 0), 0⟩ rfl
      (by decide) (by decide) (by decide),
    (getType_pack_variants cfgA (by decide) (by decide)).2.2.1 ⟨5, 7, (0, 0)⟩ rfl
      (by decide) (by decide) (by decide),
    (getType_pack_variants cfgA (by decide) (by decide)).2.2.2.1 ⟨5, ⟨7, 0, 0, 0⟩⟩ rfl
      (by decide) (by decide) (by decide),
    (getType_pack_variants cfgA (by decide) (by decide)).2.2.2.2.1 ⟨0, 0⟩ (by decide)
      (fun hc => by simp [cfgA] at hc)⟩

/-! Facts about the half-float conversions. -/

theorem roundShiftRNE_mul (a k : Nat) : roundShiftRNE (a * 2 ^ k) k = a := by
  have hpos : 0 < 2 ^ k := Nat.pos_pow_of_pos _ (by norm_num)
  have h1 : a * 2 ^ k % 2 ^ k = 0 := Nat.mul_mod_left a (2 ^ k)
  have h2 : a * 2 ^ k / 2 ^ k = a := Nat.mul_div_cancel a hpos
  unfold roundShiftRNE
  rw [h1, h2, if_neg (by omega)]

theorem f32tof16_lt (x : Nat) : f32tof16 x < 2 ^ 16 := by
  simp only [f32tof16]
  have hs : u32 x / 2 ^ 31 ≤ 1 := by
    have := u32_lt x
    omega
  have hr13 : roundShiftRNE (2 ^ 23 + u32 x % 2 ^ 23) 13 ≤ 2 ^ 11 := by
    unfold roundShiftRNE
    have hm : u32 x % 2 ^ 23 < 2 ^ 23 := Nat.mod_lt _ (by norm_num)
    split <;> omega
  have hrsub : ∀ k, 14 ≤ k → roundShiftRNE (2 ^ 23 + u32 x % 2 ^ 23) k ≤ 2 ^ 10 := by
    intro k hk
    unfold roundShiftRNE
    have hm : u32 x % 2 ^ 23 < 2 ^ 23 := Nat.mod_lt _ (by norm_num)
    have hk2 : (2 : Nat) ^ 14 ≤ 2 ^ k := Nat.pow_le_pow_right (by norm_num) hk
    have hdiv : (2 ^ 23 + u32 x % 2 ^ 23) / 2 ^ k ≤ (2 ^ 23 + u32 x % 2 ^ 23) / 2 ^ 14 := by
      exact Nat.div_le_div_left hk2 (by norm_num)
    have : (2 ^ 23 + u32 x % 2 ^ 23) / 2 ^ 14 < 2 ^ 10 := by omega
    split <;> omega
  split
  · split <;> omega
  · split
    · omega
    · split
      · have he : u32 x / 2 ^ 23 % 256 ≤ 142 := by omega
        omega
      · split
        · have := hrsub (126 - u32 x / 2 ^ 23 % 256) (by omega)
          omega
        · omega

theorem f16tof32_normal (s e m : Nat) (hs : s ≤ 1) (he1 : 1 ≤ e) (he2 : e ≤ 30)
    (hm : m < 2 ^ 10) :
    f16tof32 (s * 2 ^ 15 + e * 2 ^ 10 + m) = s * 2 ^ 31 + (e + 112) * 2 ^ 23 + m * 2 ^ 13 := by
  simp only [f16tof32]
  have h1 : (s * 2 ^ 15 + e * 2 ^ 10 + m) % 2 ^ 16 = s * 2 ^ 15 + e * 2 ^ 10 + m := by
    omega
  rw [h1]
  have h2 : (s * 2 ^ 15 + e * 2 ^ 10 + m) / 2 ^ 10 % 32 = e := by omega
  have h3 : (s * 2 ^ 15 + e * 2 ^ 10 + m) % 2 ^ 10 = m := by omega
  have h4 : (s * 2 ^ 15 + e * 2 ^ 10 + m) / 2 ^ 15 = s := by omega
  rw [h2, h3, h4, if_neg (by omega), if_neg (by omega)]

theorem f16tof32_zero (s : Nat) (hs : s ≤ 1) : f16tof32 (s * 2 ^ 15) = s * 2 ^ 31 := by
  simp only [f16tof32]
  have h1 : s * 2 ^ 15 % 2 ^ 16 = s * 2 ^ 15 := by omega
  rw [h1]
  have h2 : s * 2 ^ 15 / 2 ^ 10 % 32 = 0 := by omega
  have h3 : s * 2 ^ 15 % 2 ^ 10 = 0 := by omega
  have h4 : s * 2 ^ 15 / 2 ^ 15 = s := by omega
  rw [h2, h3, h4, if_neg (by omega), if_pos rfl, if_pos rfl]

theorem f16tof32_subnormal (s m : Nat) (hs : s ≤ 1) (hm1 : 1 ≤ m) (hm : m < 2 ^ 10) :
    f16tof32 (s * 2 ^ 15 + m) =
      s * 2 ^ 31 + (m.log2 + 103) * 2 ^ 23 + (m - 2 ^ m.log2) * 2 ^ (23 - m.log2) := by
  simp only [f16tof32]
  have h1 : (s * 2 ^ 15 + m) % 2 ^ 16 = s * 2 ^ 15 + m := by omega
  rw [h1]
  have h2 : (s * 2 ^ 15 + m) / 2 ^ 10 % 32 = 0 := by omega
  have h3 : (s * 2 ^ 15 + m) % 2 ^ 10 = m := by omega
  have h4 : (s * 2 ^ 15 + m) / 2 ^ 15 = s := by omega
  rw [h2, h3, h4, if_neg (by omega), if_pos rfl, if_neg (by omega)]

theorem f32tof16_normal32 (s e32 m32 : Nat) (hs : s ≤ 1) (he1 : 113 ≤ e32)
    (he2 : e32 ≤ 142) (hm : m32 < 2 ^ 23) :
    f32tof16 (s * 2 ^ 31 + e32 * 2 ^ 23 + m32) =
      s * 2 ^ 15 + (e32 - 113) * 2 ^ 10 + roundShiftRNE (2 ^ 23 + m32) 13 := by
  simp only [f32tof16]
  have hu : u32 (s * 2 ^ 31 + e32 * 2 ^ 23 + m32) = s * 2 ^ 31 + e32 * 2 ^ 23 + m32 := by
    rw [u32, U32_eq]
    omega
  rw [hu]
  have h2 : (s * 2 ^ 31 + e32 * 2 ^ 23 + m32) / 2 ^ 23 % 256 = e32 := by omega
  have h3 : (s * 2 ^ 31 + e32 * 2 ^ 23 + m32) % 2 ^ 23 = m32 := by omega
  have h4 : (s * 2 ^ 31 + e32 * 2 ^ 23 + m32) / 2 ^ 31 = s := by omega
  rw [h2, h3, h4, if_neg (by omega), if_neg (by omega), if_pos (by omega)]

theorem f32tof16_small32 (s e32 m32 : Nat) (hs : s ≤ 1) (he1 : 1 ≤ e32)
    (he2 : e32 ≤ 112) (hm : m32 < 2 ^ 23) :
    f32tof16 (s * 2 ^ 31 + e32 * 2 ^ 23 + m32) =
      s * 2 ^ 15 + roundShiftRNE (2 ^ 23 + m32) (126 - e32) := by
  simp only [f32tof16]
  have hu : u32 (s * 2 ^ 31 + e32 * 2 ^ 23 + m32) = s * 2 ^ 31 + e32 * 2 ^ 23 + m32 := by
    rw [u32, U32_eq]
    omega
  rw [hu]
  have h2 : (s * 2 ^ 31 + e32 * 2 ^ 23 + m32) / 2 ^ 23 % 256 = e32 := by omega
  have h3 : (s * 2 ^ 31 + e32 * 2 ^ 23 + m32) % 2 ^ 23 = m32 := by omega
  have h4 : (s * 2 ^ 31 + e32 * 2 ^ 23 + m32) / 2 ^ 31 = s := by omega
  rw [h2, h3, h4, if_neg (by omega), if_neg (by omega), if_neg (by omega),
    if_pos (by omega)]

theorem f32tof16_zero32 (s : Nat) (hs : s ≤ 1) : f32tof16 (s * 2 ^ 31) = s * 2 ^ 15 := by
  simp only [f32tof16]
  have hu : u32 (s * 2 ^ 31) = s * 2 ^ 31 := by
    rw [u32, U32_eq]
    omega
  rw [hu]
  have h2 : s * 2 ^ 31 / 2 ^ 23 % 256 = 0 := by omega
  have h3 : s * 2 ^ 31 % 2 ^ 23 = 0 := by omega
  have h4 : s * 2 ^ 31 / 2 ^ 31 = s := by omega
  rw [h2, h3, h4, if_neg (by omega), if_neg (by omega), if_neg (by omega),
    if_neg (by omega)]

/-- Converting a finite half to single precision and back is the identity on
the bit pattern. -/
theorem f32tof16_f16tof32 (h : Nat) (hlt : h < 2 ^ 16) (hfin : h / 2 ^ 10 % 32 ≠ 31) :
    f32tof16 (f16tof32 h) = h := by
  obtain ⟨s, e, m, hs, he, hm, rfl⟩ :
      ∃ s e m, s ≤ 1 ∧ e ≤ 31 ∧ m < 2 ^ 10 ∧ h = s * 2 ^ 15 + e * 2 ^ 10 + m := by
    refine ⟨h / 2 ^ 15, h / 2 ^ 10 % 32, h % 2 ^ 10, by omega, by omega, by omega, by omega⟩
  have hene : e ≠ 31 := by
    intro he31
    exact hfin (by omega)
  by_cases he0 : e = 0
  · subst he0
    by_cases hm0 : m = 0
    · subst hm0
      simp only [Nat.zero_mul, Nat.add_zero]
      rw [f16tof32_zero s hs, f32tof16_zero32 s hs]
    · have hm1 : 1 ≤ m := Nat.one_le_iff_ne_zero.mpr hm0
      rw [Nat.zero_mul, Nat.add_zero, f16tof32_subnormal s m hs hm1 hm]
      have hL9 : m.log2 ≤ 9 := by
        have := (Nat.log2_lt hm0).mpr hm
        omega
      have hLle : 2 ^ m.log2 ≤ m := Nat.log2_self_le hm0
      have hLlt : m < 2 ^ (m.log2 + 1) := Nat.lt_log2_self
      have hmr : (m - 2 ^ m.log2) * 2 ^ (23 - m.log2) < 2 ^ 23 := by
        have h1 : m - 2 ^ m.log2 < 2 ^ m.log2 := by
          have := Nat.pow_succ 2 m.log2
          omega
        calc (m - 2 ^ m.log2) * 2 ^ (23 - m.log2)
            < 2 ^ m.log2 * 2 ^ (23 - m.log2) := by
              exact Nat.mul_lt_mul_of_lt_of_le h1 le_rfl (Nat.pos_pow_of_pos _ (by norm_num))
          _ = 2 ^ 23 := by rw [← pow_add]; congr 1; omega
      rw [f32tof16_small32 s (m.log2 + 103) _ hs (by omega) (by omega) hmr]
      have hkey : 2 ^ 23 + (m - 2 ^ m.log2) * 2 ^ (23 - m.log2) = m * 2 ^ (23 - m.log2) := by
        have hsplit : (2 : Nat) ^ 23 = 2 ^ m.log2 * 2 ^ (23 - m.log2) := by
          rw [← pow_add]; congr 1; omega
        rw [hsplit, ← Nat.add_mul, Nat.add_sub_cancel' hLle]
      have hexp : 126 - (m.log2 + 103) = 23 - m.log2 := by omega
      rw [hexp, hkey, roundShiftRNE_mul]
  · have he1 : 1 ≤ e := Nat.one_le_iff_ne_zero.mpr he0
    have he30 : e ≤ 30 := by omega
    rw [f16tof32_normal s e m hs he1 he30 hm]
    have hm13 : m * 2 ^ 13 < 2 ^ 23 := by omega
    rw [f32tof16_normal32 s (e + 112) (m * 2 ^ 13) hs (by omega) (by omega) hm13]
    have hkey : 2 ^ 23 + m * 2 ^ 13 = (2 ^ 10 + m) * 2 ^ 13 := by ring
    rw [hkey, roundShiftRNE_mul]
    have : e + 112 - 113 = e - 1 := by omega
    rw [this]
    have : s * 2 ^ 15 + (e - 1) * 2 ^ 10 + (2 ^ 10 + m) = s * 2 ^ 15 + e * 2 ^ 10 + m := by
      have : 1 ≤ e := he1
      omega
    rw [this]

/-! Unsigned-normalized quantization error bounds. -/

theorem ftoUint_unorm_le (v : ℚ) (M : Nat) (hM : 0 < M) (hM32 : M < 4294967296)
    (h0 : 0 ≤ v) (h1 : v ≤ 1) : ftoUint (v * M + 1 / 2) ≤ M := by
  have hMQ : (0 : ℚ) ≤ (M : ℚ) := Nat.cast_nonneg M
  have hub : v * M + 1 / 2 ≤ (M : ℚ) + 1 / 2 := by nlinarith
  have hfloorM : ⌊(M : ℚ) + 1 / 2⌋ = (M : ℤ) := by
    rw [show ((M : ℚ)) = ((M : ℤ) : ℚ) by push_cast; ring, Int.floor_int_add]
    norm_num
  have hle : ⌊v * M + 1 / 2⌋ ≤ (M : ℤ) := by
    rw [← hfloorM]
    exact Int.floor_le_floor hub
  have htn : Int.toNat ⌊v * M + 1 / 2⌋ ≤ M := Int.toNat_le.mpr hle
  rw [ftoUint, u32_eq_of_lt (lt_of_le_of_lt htn (by rw [show (2:Nat)^32 = 4294967296 by norm_num]; exact hM32))]
  exact htn

theorem ftoUint_unorm_cast (v : ℚ) (M : Nat) (hM : 0 < M) (hM32 : M < 4294967296)
    (h0 : 0 ≤ v) (h1 : v ≤ 1) :
    ((ftoUint (v * M + 1 / 2) : ℚ)) = ((⌊v * M + 1 / 2⌋ : ℤ) : ℚ) := by
  have hMQ : (0 : ℚ) ≤ (M : ℚ) := Nat.cast_nonneg M
  have hq0 : (0 : ℚ) ≤ v * M + 1 / 2 := by nlinarith
  have hfl0 : 0 ≤ ⌊v * M + 1 / 2⌋ := Int.floor_nonneg.mpr hq0
  have htn : Int.toNat ⌊v * M + 1 / 2⌋ ≤ M := by
    have hub : v * M + 1 / 2 ≤ (M : ℚ) + 1 / 2 := by nlinarith
    have hfloorM : ⌊(M : ℚ) + 1 / 2⌋ = (M : ℤ) := by
      rw [show ((M : ℚ)) = ((M : ℤ) : ℚ) by push_cast; ring, Int.floor_int_add]
      norm_num
    refine Int.toNat_le.mpr ?_
    rw [← hfloorM]
    exact Int.floor_le_floor hub
  rw [ftoUint, u32_eq_of_lt (lt_of_le_of_lt htn (by rw [show (2:Nat)^32 = 4294967296 by norm_num]; exact hM32))]
  rw [show ((Int.toNat ⌊v * M + 1 / 2⌋ : Nat) : ℚ) = ((Int.toNat ⌊v * M + 1 / 2⌋ : ℤ) : ℚ) by push_cast; ring,
    Int.toNat_of_nonneg hfl0]

theorem unorm_roundtrip_err (v : ℚ) (M : Nat) (hM : 0 < M) (hM32 : M < 4294967296)
    (h0 : 0 ≤ v) (h1 : v ≤ 1) :
    |((ftoUint (v * M + 1 / 2) : ℚ)) * (1 / M) - v| ≤ 1 / M := by
  have hMQ : (0 : ℚ) < (M : ℚ) := by exact_mod_cast hM
  have hMne : (M : ℚ) ≠ 0 := ne_of_gt hMQ
  rw [ftoUint_unorm_cast v M hM hM32 h0 h1]
  set u : ℚ := ((⌊v * M + 1 / 2⌋ : ℤ) : ℚ) with hu
  have hub : u ≤ v * M + 1 / 2 := Int.floor_le _
  have hlb : v * M + 1 / 2 - 1 < u := Int.sub_one_lt_floor _
  have habs : |u - v * M| ≤ 1 := by
    rw [abs_le]
    constructor <;> nlinarith
  have heq : u * (1 / M) - v = (u - v * M) * (1 / M) := by
    field_simp
    ring
  rw [heq, abs_mul, abs_of_nonneg (show (0 : ℚ) ≤ 1 / M by positivity)]
  calc |u - v * M| * (1 / M) ≤ 1 * (1 / M) :=
        mul_le_mul_of_nonneg_right habs (by positivity)
    _ = 1 / M := one_mul _

/-! Word layout of the displaced-triangle payload. -/

theorem or_eq_add' {k a b : Nat} (ha : a < 2 ^ k) (hd : 2 ^ k ∣ b) : a ||| b = a + b := by
  rw [Nat.lor_comm, or_eq_add hd ha, Nat.add_comm]

theorem f16tof32_mod (x : Nat) : f16tof32 (x % 2 ^ 16) = f16tof32 x := by
  simp only [f16tof32, Nat.mod_mod_of_dvd _ dvd_rfl]

theorem u24_words (ux uy f : Nat) (hux : ux < 2 ^ 24) (huy : uy < 2 ^ 24)
    (hf : f < 2 ^ 16) :
    wshl ux 8 ||| wshr uy 16 = ux * 2 ^ 8 + uy / 2 ^ 16 ∧
      wshl uy 16 ||| f = uy % 2 ^ 16 * 2 ^ 16 + f := by
  constructor
  · rw [wshl_eq_of_lt (by norm_num) (by omega), wshr_eq (by norm_num) (by omega)]
    exact or_eq_add (dvd_mul_left _ _) (by omega)
  · rw [wshl_eq uy (by norm_num), show (2:Nat) ^ 32 = 2 ^ 16 * 2 ^ 16 by norm_num,
      Nat.mul_mod_mul_right]
    exact or_eq_add (dvd_mul_left _ _) hf

theorem u24_decode (ux uy f : Nat) (hux : ux < 2 ^ 24) (huy : uy < 2 ^ 24)
    (hf : f < 2 ^ 16) :
    wshr (ux * 2 ^ 8 + uy / 2 ^ 16) 8 = ux ∧
      (wshl ((ux * 2 ^ 8 + uy / 2 ^ 16) &&& 255) 16 |||
        wshr (uy % 2 ^ 16 * 2 ^ 16 + f) 16) = uy ∧
      (uy % 2 ^ 16 * 2 ^ 16 + f) % 2 ^ 16 = f ∧
      (ux * 2 ^ 8 + uy / 2 ^ 16) % 2 ^ 8 = uy / 2 ^ 16 ∧
      (uy % 2 ^ 16 * 2 ^ 16 + f) / 2 ^ 16 = uy % 2 ^ 16 := by
  have hw2 : ux * 2 ^ 8 + uy / 2 ^ 16 < 2 ^ 32 := by omega
  have hw3 : uy % 2 ^ 16 * 2 ^ 16 + f < 2 ^ 32 := by omega
  have hand : (ux * 2 ^ 8 + uy / 2 ^ 16) &&& 255 = uy / 2 ^ 16 := by
    rw [show (255 : Nat) = 2 ^ 8 - 1 by norm_num, Nat.and_pow_two_sub_one_eq_mod]
    omega
  refine ⟨?_, ?_, by omega, by omega, by omega⟩
  · rw [wshr_eq (by norm_num) hw2]
    omega
  · rw [hand, wshr_eq (by norm_num) hw3, wshl_eq_of_lt (by norm_num) (by omega)]
    have hd : (uy % 2 ^ 16 * 2 ^ 16 + f) / 2 ^ 16 = uy % 2 ^ 16 := by omega
    rw [hd, or_eq_add (dvd_mul_left _ _) (by omega)]
    omega

theorem displaced_pack_words (c : HitInfoConfig) (h : DisplacedTriangleHit)
    (hen : c.hasDisplacedTriangleMesh = true) :
    (DisplacedTriangleHit.pack c h).w2 =
      wshl (ftoUint (h.barycentrics.1 * 16777215 + 1 / 2)) 8 |||
        wshr (ftoUint (h.barycentrics.2 * 16777215 + 1 / 2)) 16 ∧
      (DisplacedTriangleHit.pack c h).w3 =
        wshl (ftoUint (h.barycentrics.2 * 16777215 + 1 / 2)) 16 |||
          f32tof16 h.displacement := by
  rw [DisplacedTriangleHit.pack, if_pos hen]
  exact ⟨rfl, rfl⟩

theorem ftoUint_eval {q : ℚ} {n : ℕ} (h : ⌊q⌋ = (n : ℤ)) (hn : n < 4294967296) :
    ftoUint q = n := by
  rw [ftoUint, h, Int.toNat_natCast]
  exact u32_eq_of_lt (by rw [show (2 : Nat) ^ 32 = 4294967296 by norm_num]; exact hn)

/-- C4, counterexample: with barycentric `y = 3/4` the 24-bit quantized value
is `12582911 = 0xBFFFFF`; word 2's bits `[7:0]` hold `0xBF = 191`, its high
**8** bits, not its high 16 bits `0xBFFF = 49151` as the claim states (a
16-bit quantity cannot fit the 8-bit slot). -/
theorem displaced_pack_layout_claim_false :
    (DisplacedTriangleHit.pack cfgA ⟨0, 0, (0, 3 / 4), 0⟩).w2 % 2 ^ 8 ≠
      ftoUint ((3 : ℚ) / 4 * 16777215 + 1 / 2) / 2 ^ 8 := by
  have hx : ftoUint ((0 : ℚ) * 16777215 + 1 / 2) = 0 :=
    ftoUint_eval (by rw [Int.floor_eq_iff] <;> norm_num) (by norm_num)
  have hy : ftoUint ((3 : ℚ) / 4 * 16777215 + 1 / 2) = 12582911 :=
    ftoUint_eval (by rw [Int.floor_eq_iff] <;> norm_num) (by norm_num)
  obtain ⟨hw2, _⟩ := displaced_pack_words cfgA ⟨0, 0, (0, 3 / 4), 0⟩ rfl
  rw [hw2]
  show (wshl (ftoUint ((0 : ℚ) * 16777215 + 1 / 2)) 8 |||
      wshr (ftoUint ((3 : ℚ) / 4 * 16777215 + 1 / 2)) 16) % 2 ^ 8 ≠
    ftoUint ((3 : ℚ) / 4 * 16777215 + 1 / 2) / 2 ^ 8
  rw [hx, hy]
  decide

/-- C4 (amended): for barycentrics in `[0,1]`, `DisplacedTriangleHit.pack`
lays its payload out as: `barycentric.x` as a 24-bit unorm in word 2 bits
`[31:8]`; `barycentric.y` as a 24-bit unorm split across word 2 bits `[7:0]`
(the high 8 bits of `y`) and word 3 bits `[31:16]` (the low 16 bits of `y`);
the displacement as a 16-bit half in word 3 bits `[15:0]`; where a unorm
value `v` is encoded as `trunc(v * 16777215 + 0.5)` and decoded by dividing
by `16777215`. -/
theorem displaced_pack_layout (c : HitInfoConfig) (h : DisplacedTriangleHit)
    (hen : c.hasDisplacedTriangleMesh = true)
    (hx0 : 0 ≤ h.barycentrics.1) (hx1 : h.barycentrics.1 ≤ 1)
    (hy0 : 0 ≤ h.barycentrics.2) (hy1 : h.barycentrics.2 ≤ 1) :
    (DisplacedTriangleHit.pack c h).w2 / 2 ^ 8 =
        ftoUint (h.barycentrics.1 * 16777215 + 1 / 2) ∧
      (DisplacedTriangleHit.pack c h).w2 % 2 ^ 8 =
        ftoUint (h.barycentrics.2 * 16777215 + 1 / 2) / 2 ^ 16 ∧
      (DisplacedTriangleHit.pack c h).w3 / 2 ^ 16 =
        ftoUint (h.barycentrics.2 * 16777215 + 1 / 2) % 2 ^ 16 ∧
      (DisplacedTriangleHit.pack c h).w3 % 2 ^ 16 = f32tof16 h.displacement ∧
      (DisplacedTriangleHit.unpack c (DisplacedTriangleHit.pack c h)).barycentrics =
        ((ftoUint (h.barycentrics.1 * 16777215 + 1 / 2) : ℚ) * (1 / 16777215),
          (ftoUint (h.barycentrics.2 * 16777215 + 1 / 2) : ℚ) * (1 / 16777215)) := by
  have hux : ftoUint (h.barycentrics.1 * 16777215 + 1 / 2) < 2 ^ 24 := by
    have h' := ftoUint_unorm_le h.barycentrics.1 16777215 (by norm_num) (by norm_num) hx0 hx1
    push_cast at h'
    omega
  have huy : ftoUint (h.barycentrics.2 * 16777215 + 1 / 2) < 2 ^ 24 := by
    have h' := ftoUint_unorm_le h.barycentrics.2 16777215 (by norm_num) (by norm_num) hy0 hy1
    push_cast at h'
    omega
  have hf : f32tof16 h.displacement < 2 ^ 16 := f32tof16_lt h.displacement
  obtain ⟨hw2, hw3⟩ := displaced_pack_words c h hen
  obtain ⟨hv2, hv3⟩ := u24_words _ _ _ hux huy hf
  rw [hw2, hw3, hv2, hv3]
  obtain ⟨hd1, hd2, hd3, hd4, hd5⟩ := u24_decode _ _ _ hux huy hf
  refine ⟨by omega, hd4, hd5, hd3, ?_⟩
  rw [DisplacedTriangleHit.unpack, if_pos hen]
  simp only [hw2, hw3, hv2, hv3]
  rw [hd1, hd2]

/-- C4, witness: the amended layout theorem applied at scenario B's hit
(barycentrics `(1/4, 3/4)`, displacement bits of `1.5`) under scenario A's
configuration. -/
theorem displaced_pack_layout_witness :
    (DisplacedTriangleHit.pack cfgA ⟨3, 9, (1 / 4, 3 / 4), 1069547520⟩).w2 / 2 ^ 8 =
        ftoUint ((1 / 4 : ℚ) * 16777215 + 1 / 2) ∧
      (DisplacedTriangleHit.pack cfgA ⟨3, 9, (1 / 4, 3 / 4), 1069547520⟩).w2 % 2 ^ 8 =
        ftoUint ((3 / 4 : ℚ) * 16777215 + 1 / 2) / 2 ^ 16 ∧
      (DisplacedTriangleHit.pack cfgA ⟨3, 9, (1 / 4, 3 / 4), 1069547520⟩).w3 / 2 ^ 16 =
        ftoUint ((3 / 4 : ℚ) * 16777215 + 1 / 2) % 2 ^ 16 ∧
      (DisplacedTriangleHit.pack cfgA ⟨3, 9, (1 / 4, 3 / 4), 1069547520⟩).w3 % 2 ^ 16 =
        f32tof16 1069547520 ∧
      (DisplacedTriangleHit.unpack cfgA
          (DisplacedTriangleHit.pack cfgA ⟨3, 9, (1 / 4, 3 / 4), 1069547520⟩)).barycentrics =
        ((ftoUint ((1 / 4 : ℚ) * 16777215 + 1 / 2) : ℚ) * (1 / 16777215),
          (ftoUint ((3 / 4 : ℚ) * 16777215 + 1 / 2) : ℚ) * (1 / 16777215)) :=
  displaced_pack_layout cfgA ⟨3, 9, (1 / 4, 3 / 4), 1069547520⟩ rfl (by norm_num)
    (by norm_num) (by norm_num) (by norm_num)

/-- C5: round-trips.  For a `DisplacedTriangleHit` with barycentrics in
`[0,1]`, packing then unpacking yields barycentrics within `1/16777215` of
the originals, and recovers the displacement exactly whenever it is the
value of a finite 16-bit half (i.e. representable without precision loss);
for a `TriangleHit` under compression, decoded barycentrics are within
`1/65535` of the originals. -/
theorem pack_unpack_roundtrip_bounds (c : HitInfoConfig) :
    (∀ h : DisplacedTriangleHit, c.hasDisplacedTriangleMesh = true →
      0 ≤ h.barycentrics.1 → h.barycentrics.1 ≤ 1 →
      0 ≤ h.barycentrics.2 → h.barycentrics.2 ≤ 1 →
      |(DisplacedTriangleHit.unpack c
          (DisplacedTriangleHit.pack c h)).barycentrics.1 - h.barycentrics.1| ≤
          1 / 16777215 ∧
        |(DisplacedTriangleHit.unpack c
            (DisplacedTriangleHit.pack c h)).barycentrics.2 - h.barycentrics.2| ≤
          1 / 16777215 ∧
        ∀ hf : Nat, hf < 2 ^ 16 → hf / 2 ^ 10 % 32 ≠ 31 → h.displacement = f16tof32 hf →
          (DisplacedTriangleHit.unpack c
            (DisplacedTriangleHit.pack c h)).displacement = h.displacement) ∧
      ∀ h : TriangleHit, c.hasTriangleMesh = true → c.useCompression = true →
        0 ≤ h.barycentrics.1 → h.barycentrics.1 ≤ 1 →
        0 ≤ h.barycentrics.2 → h.barycentrics.2 ≤ 1 →
        |(TriangleHit.unpack c (TriangleHit.pack c h)).barycentrics.1 -
            h.barycentrics.1| ≤ 1 / 65535 ∧
          |(TriangleHit.unpack c (TriangleHit.pack c h)).barycentrics.2 -
              h.barycentrics.2| ≤ 1 / 65535 := by
  constructor
  · intro h hen hx0 hx1 hy0 hy1
    obtain ⟨w2eq, w2mod, w3div, w3mod, hbary⟩ :=
      displaced_pack_layout c h hen hx0 hx1 hy0 hy1
    refine ⟨?_, ?_, ?_⟩
    · rw [hbary]
      exact unorm_roundtrip_err h.barycentrics.1 16777215 (by norm_num) (by norm_num)
        hx0 hx1
    · rw [hbary]
      exact unorm_roundtrip_err h.barycentrics.2 16777215 (by norm_num) (by norm_num)
        hy0 hy1
    · intro hf hf16 hffin hfd
      rw [DisplacedTriangleHit.unpack, if_pos hen]
      simp only
      rw [← f16tof32_mod, w3mod, hfd, f32tof16_f16tof32 hf hf16 hffin]
  · intro h hen hc hx0 hx1 hy0 hy1
    have hpx : packUnorm16Raw h.barycentrics.1 ≤ 65535 := by
      have h' := ftoUint_unorm_le h.barycentrics.1 65535 (by norm_num) (by norm_num) hx0 hx1
      push_cast at h'
      rw [packUnorm16Raw]
      exact h'
    have hpy : packUnorm16Raw h.barycentrics.2 ≤ 65535 := by
      have h' := ftoUint_unorm_le h.barycentrics.2 65535 (by norm_num) (by norm_num) hy0 hy1
      push_cast at h'
      rw [packUnorm16Raw]
      exact h'
    have hw1 : (TriangleHit.pack c h).w1 = packUnorm2x16Raw h.barycentrics := by
      rw [TriangleHit.pack, if_pos hen, if_pos hc]
    have hval : packUnorm2x16Raw h.barycentrics =
        packUnorm16Raw h.barycentrics.1 + packUnorm16Raw h.barycentrics.2 * 2 ^ 16 := by
      rw [packUnorm2x16Raw, wshl_eq_of_lt (by norm_num) (by omega)]
      exact or_eq_add' (by omega) (dvd_mul_left _ _)
    have hlow : (TriangleHit.pack c h).w1 &&& 65535 = packUnorm16Raw h.barycentrics.1 := by
      rw [hw1, hval, show (65535 : Nat) = 2 ^ 16 - 1 by norm_num,
        Nat.and_pow_two_sub_one_eq_mod]
      omega
    have hhigh : wshr (TriangleHit.pack c h).w1 16 = packUnorm16Raw h.barycentrics.2 := by
      rw [hw1, hval, wshr_eq (by norm_num) (by omega)]
      omega
    have hun : (TriangleHit.unpack c (TriangleHit.pack c h)).barycentrics =
        ((packUnorm16Raw h.barycentrics.1 : ℚ) / 65535,
          (packUnorm16Raw h.barycentrics.2 : ℚ) / 65535) := by
      rw [TriangleHit.unpack, if_pos hen]
      simp only [if_pos hc, unpackUnorm2x16, unpackUnorm16, hlow, hhigh]
    rw [hun]
    have herrx := unorm_roundtrip_err h.barycentrics.1 65535 (by norm_num) (by norm_num)
      hx0 hx1
    have herry := unorm_roundtrip_err h.barycentrics.2 65535 (by norm_num) (by norm_num)
      hy0 hy1
    push_cast at herrx herry
    constructor
    · simp only
      rw [show ((packUnorm16Raw h.barycentrics.1 : ℚ)) / 65535 =
          ((packUnorm16Raw h.barycentrics.1 : ℚ)) * (1 / 65535) by ring, packUnorm16Raw]
      exact herrx
    · simp only
      rw [show ((packUnorm16Raw h.barycentrics.2 : ℚ)) / 65535 =
          ((packUnorm16Raw h.barycentrics.2 : ℚ)) * (1 / 65535) by ring, packUnorm16Raw]
      exact herry

/-- C5, witness: scenario B — a `DisplacedTriangleHit` with barycentrics
`(1/4, 3/4)` and displacement `1.5` (bits `0x3FC00000`, the value of the
finite half `0x3E00`) round-trips with barycentrics within `1/16777215` and
the displacement bit-exact; and a compressed `TriangleHit` with the same
barycentrics round-trips within `1/65535`. -/
theorem pack_unpack_roundtrip_bounds_witness :
    |(DisplacedTriangleHit.unpack cfgA
        (DisplacedTriangleHit.pack cfgA ⟨3, 9, (1 / 4, 3 / 4), 1069547520⟩)).barycentrics.1 -
        1 / 4| ≤ 1 / 16777215 ∧
      |(DisplacedTriangleHit.unpack cfgA
          (DisplacedTriangleHit.pack cfgA ⟨3, 9, (1 / 4, 3 / 4), 1069547520⟩)).barycentrics.2 -
          3 / 4| ≤ 1 / 16777215 ∧
      (DisplacedTriangleHit.unpack cfgA
          (DisplacedTriangleHit.pack cfgA ⟨3, 9, (1 / 4, 3 / 4), 1069547520⟩)).displacement =
        1069547520 ∧
      |(TriangleHit.unpack cfgCompressed
          (TriangleHit.pack cfgCompressed ⟨1, 2, (1 / 4, 3 / 4)⟩)).barycentrics.1 -
          1 / 4| ≤ 1 / 65535 ∧
      |(TriangleHit.unpack cfgCompressed
          (TriangleHit.pack cfgCompressed ⟨1, 2, (1 / 4, 3 / 4)⟩)).barycentrics.2 -
          3 / 4| ≤ 1 / 65535 :=
  ⟨((pack_unpack_roundtrip_bounds cfgA).1 ⟨3, 9, (1 / 4, 3 / 4), 1069547520⟩ rfl
      (by norm_num) (by norm_num) (by norm_num) (by norm_num)).1,
    ((pack_unpack_roundtrip_bounds cfgA).1 ⟨3, 9, (1 / 4, 3 / 4), 1069547520⟩ rfl
      (by norm_num) (by norm_num) (by norm_num) (by norm_num)).2.1,
    ((pack_unpack_roundtrip_bounds cfgA).1 ⟨3, 9, (1 / 4, 3 / 4), 1069547520⟩ rfl
      (by norm_num) (by norm_num) (by norm_num) (by norm_num)).2.2 15872 (by decide)
      (by decide) (by decide),
    ((pack_unpack_roundtrip_bounds cfgCompressed).2 ⟨1, 2, (1 / 4, 3 / 4)⟩ rfl rfl
      (by norm_num) (by norm_num) (by norm_num) (by norm_num)).1,
    ((pack_unpack_roundtrip_bounds cfgCompressed).2 ⟨1, 2, (1 / 4, 3 / 4)⟩ rfl rfl
      (by norm_num) (by norm_num) (by norm_num) (by norm_num)).2⟩

/-- C6: `VolumeHit` round-trips.  Compressed (`typeBits` between 1 and 16 so
the tag and the half-float `g` share word 0 without overlap): `t` is stored
as a raw 32-bit float in word 1 and recovered bit-for-bit, `g` is stored as
a 16-bit half in word 0's low 16 bits and recovered as the half round-trip
of its value — for `g = 0.3f` (bits `0x3E99999A`) the recovered value is
within `1/1000` of `3/10`.  Uncompressed: `t` in word 1 and `g` in word 2,
both raw floats, recovered exactly. -/
theorem volume_roundtrip (c : HitInfoConfig) :
    (∀ v : VolumeHit, c.useCompression = true → v.t < 2 ^ 32 →
      (VolumeHit.unpack c (VolumeHit.pack c v)).t = v.t) ∧
      (∀ v : VolumeHit, c.useCompression = true → 1 ≤ c.typeBits → c.typeBits ≤ 16 →
        (VolumeHit.unpack c (VolumeHit.pack c v)).g = f16tof32 (f32tof16 v.g)) ∧
      (∀ v : VolumeHit, c.useCompression = false → v.t < 2 ^ 32 → v.g < 2 ^ 32 →
        VolumeHit.unpack c (VolumeHit.pack c v) = v) ∧
      |val32 (f16tof32 (f32tof16 1050253722)) - 3 / 10| < 1 / 1000 := by
  have hpackC : ∀ (v : VolumeHit), c.useCompression = true → VolumeHit.pack c v =
      ⟨wshl HitType.volume c.kTypeOffset ||| (f32tof16 v.g &&& 65535), u32 v.t, 0, 0⟩ := by
    intro v hc
    rw [VolumeHit.pack, if_pos hc]
    rfl
  refine ⟨?_, ?_, ?_, ?_⟩
  · intro v hc ht
    rw [hpackC v hc, VolumeHit.unpack, if_pos hc]
    simp only
    rw [u32_eq_of_lt ht, u32_eq_of_lt ht]
  · intro v hc h1 h16
    rw [hpackC v hc, VolumeHit.unpack, if_pos hc]
    simp only
    have hoff1 : 16 ≤ c.kTypeOffset := by
      simp only [HitInfoConfig.kTypeOffset]; omega
    have hoff2 : c.kTypeOffset < 32 := by
      simp only [HitInfoConfig.kTypeOffset]; omega
    have hmask : f32tof16 v.g &&& 65535 = f32tof16 v.g := by
      rw [show (65535 : Nat) = 2 ^ 16 - 1 by norm_num, Nat.and_pow_two_sub_one_eq_mod]
      exact Nat.mod_eq_of_lt (f32tof16_lt _)
    rw [hmask, show (65535 : Nat) = 2 ^ 16 - 1 by norm_num,
      Nat.and_pow_two_sub_one_eq_mod, or_mod_two_pow]
    have hA : wshl HitType.volume c.kTypeOffset % 2 ^ 16 = 0 := by
      rw [wshl_eq _ hoff2, Nat.mod_mod_of_dvd _ (pow_dvd_pow 2 (by norm_num)),
        pow_factor HitType.volume hoff1, Nat.mul_mod_right]
    rw [hA, Nat.zero_or, Nat.mod_eq_of_lt (f32tof16_lt _)]
  · intro v hc ht hg
    have hpack : VolumeHit.pack c v =
        ⟨wshl HitType.volume c.kTypeOffset, u32 v.t, u32 v.g, 0⟩ := by
      rw [VolumeHit.pack, if_neg (by simp [hc])]
      rfl
    obtain ⟨t, g⟩ := v
    rw [hpack, VolumeHit.unpack, if_neg (by simp [hc])]
    simp only at ht hg ⊢
    rw [u32_eq_of_lt ht, u32_eq_of_lt ht, u32_eq_of_lt hg, u32_eq_of_lt hg]
  · have h1 : f32tof16 1050253722 = 13517 := by decide
    have h2 : f16tof32 13517 = 1050255360 := by decide
    have h3 : val32 1050255360 = 1229 / 4096 := by
      simp only [val32]
      norm_num [u32, U32]
    rw [h1, h2, h3, show (1229 : ℚ) / 4096 - 3 / 10 = 1 / 20480 by norm_num,
      abs_of_nonneg (show (0 : ℚ) ≤ 1 / 20480 by norm_num)]
    norm_num

/-- C6, witness: scenario C — compressed mode, `t = 10.0f` (bits
`0x41200000`) recovered bit-exactly and `g = 0.3f` recovered as the half
round-trip; and both fields recovered exactly in uncompressed mode. -/
theorem volume_roundtrip_witness :
    (VolumeHit.unpack cfgCompressed
        (VolumeHit.pack cfgCompressed ⟨1092616192, 1050253722⟩)).t = 1092616192 ∧
      (VolumeHit.unpack cfgCompressed
          (VolumeHit.pack cfgCompressed ⟨1092616192, 1050253722⟩)).g =
        f16tof32 (f32tof16 1050253722) ∧
      VolumeHit.unpack cfgA (VolumeHit.pack cfgA ⟨1092616192, 1050253722⟩) =
        ⟨1092616192, 1050253722⟩ :=
  ⟨(volume_roundtrip cfgCompressed).1 ⟨1092616192, 1050253722⟩ rfl (by decide),
    (volume_roundtrip cfgCompressed).2.1 ⟨1092616192, 1050253722⟩ rfl (by decide)
      (by decide),
    (volume_roundtrip cfgA).2.2.1 ⟨1092616192, 1050253722⟩ rfl (by decide) (by decide)⟩

end Falcor
